import Mathlib

/-!
Verification development for the Puhaa-WoW protocol core: the RC4 header
cipher, the SRP6a key-exchange engine, the authentication-stream framer,
the world-session state machine, and the entity snapshot/delta decoder.
Definitions are shallow embeddings of the C++ sources (`src/auth/rc4.cpp`,
`src/game/game_handler.cpp`, `src/game/world_packets.cpp`); components whose
implementation files are not part of the source tree (the SRP engine, the
authentication-socket framer, the binary packet cursor) are modelled from the
design documents, as noted on each definition.
Bytes are represented as `Nat` values below 256; machine arithmetic is made
explicit with `% 256` / `% (2 ^ 32)` where the C++ code relies on fixed-width
wraparound.
-/

set_option maxRecDepth 10000

namespace PuhaaWoW

/-! ## RC4 stream cipher (src/auth/rc4.cpp)

The cipher state is the 256-byte permutation table plus the two cursor
indices `x` and `y` (both `uint8_t` in the source, hence kept below 256). -/

structure RC4State where
  state : List Nat
  x : Nat
  y : Nat
deriving DecidableEq

/-- The constructor `RC4::RC4()`: identity permutation table, `x = y = 0`. -/
def rc4New : RC4State := ⟨List.range 256, 0, 0⟩

/-- Swap entries `i` and `j` of the table, as the three-line swap in the
source (`temp = state[i]; state[i] = state[j]; state[j] = temp`). -/
def rc4Swap (l : List Nat) (i j : Nat) : List Nat :=
  let a := l.getD i 0
  let b := l.getD j 0
  (l.set i b).set j a

/-- One iteration of the key-scheduling loop in `RC4::init`:
`j = j + state[i] + key[i % key.size()]` (with `uint8_t` wraparound),
then swap `state[i]` and `state[j]`. -/
def rc4KsaStep (key : List Nat) (acc : List Nat × Nat) (i : Nat) :
    List Nat × Nat :=
  let j := (acc.2 + acc.1.getD i 0 + key.getD (i % key.length) 0) % 256
  (rc4Swap acc.1 i j, j)

/-- `RC4::init`: an empty key is rejected before any state is touched;
otherwise the cursors are reset, the table is reset to the identity and the
key-scheduling loop runs over `i = 0 .. 255`. -/
def rc4Init (key : List Nat) (s : RC4State) : RC4State :=
  if key = [] then s
  else
    let run := (List.range 256).foldl (rc4KsaStep key) (List.range 256, 0)
    ⟨run.1, 0, 0⟩

/-- One iteration of the pseudo-random generation loop in `RC4::process`:
advance `x` and `y` (with `uint8_t` wraparound), swap `state[x]` and
`state[y]`, and XOR the keystream byte `state[(state[x] + state[y]) & 0xFF]`
into the data byte. -/
def rc4PrgaStep (acc : RC4State × List Nat) (b : Nat) : RC4State × List Nat :=
  let x := (acc.1.x + 1) % 256
  let y := (acc.1.y + acc.1.state.getD x 0) % 256
  let st := rc4Swap acc.1.state x y
  let ks := st.getD ((st.getD x 0 + st.getD y 0) % 256) 0
  (⟨st, x, y⟩, acc.2 ++ [Nat.xor b ks])

/-- `RC4::process`: an empty buffer returns immediately; otherwise the
generation loop transforms the buffer in place, byte by byte. -/
def rc4Process (s : RC4State) (data : List Nat) : RC4State × List Nat :=
  if data = [] then (s, data)
  else data.foldl rc4PrgaStep (s, [])

/-- The byte values of the ASCII string `"Key"`. -/
def rc4TestKey : List Nat := [0x4B, 0x65, 0x79]

/-- The byte values of the ASCII string `"Plaintext"`. -/
def rc4TestPlain : List Nat := [0x50, 0x6C, 0x61, 0x69, 0x6E, 0x74, 0x65, 0x78, 0x74]

/-! ## Binary packet cursor

Modelled from the spec: the binary cursor / message envelope (§4.4) of the
design document. The `Packet` class implementation is not part of the source
tree (only its use sites in `world_packets.cpp` are), so reads are modelled
per the spec: sequential little-endian consumption advancing an internal
read offset, where reading past the end is a decode failure (`none`), and
the offset supports explicit rewind (`setReadPos`). -/

structure Packet where
  opcode : Nat
  data : List Nat
  readPos : Nat
deriving DecidableEq

/-- `Packet::getSize()`. -/
def Packet.size (p : Packet) : Nat := p.data.length

/-- `Packet::setReadPos`. -/
def Packet.setReadPos (p : Packet) (pos : Nat) : Packet := { p with readPos := pos }

/-- Modelled from the spec: read one byte at the current offset and advance;
past the end this is a decode failure. -/
def readUInt8 (p : Packet) : Option (Nat × Packet) :=
  match p.data.drop p.readPos with
  | [] => none
  | b :: _ => some (b, { p with readPos := p.readPos + 1 })

/-- Modelled from the spec: read a little-endian 32-bit integer. -/
def readUInt32 (p : Packet) : Option (Nat × Packet) := do
  let (b0, p) ← readUInt8 p
  let (b1, p) ← readUInt8 p
  let (b2, p) ← readUInt8 p
  let (b3, p) ← readUInt8 p
  some (b0 + b1 * 256 + b2 * 65536 + b3 * 16777216, p)

/-- Modelled from the spec: read a little-endian 64-bit integer. -/
def readUInt64 (p : Packet) : Option (Nat × Packet) := do
  let (lo, p) ← readUInt32 p
  let (hi, p) ← readUInt32 p
  some (lo + hi * 4294967296, p)

/-- The little-endian byte serialization of a 32-bit word, as written by the
write side of the cursor. -/
def wordLE (w : Nat) : List Nat :=
  [w % 256, w / 256 % 256, w / 65536 % 256, w / 16777216 % 256]

/-- The concatenated little-endian serialization of a list of 32-bit words. -/
def wordsLE (ws : List Nat) : List Nat := ws.flatMap wordLE

/-! ## Packed-identifier decoding (`UpdateObjectParser::readPackedGuid`,
src/game/world_packets.cpp lines 476–494). -/

/-- The loop of `readPackedGuid`: for each index `i` in order, if bit `i` of
the mask is set, read one byte and OR it into byte position `i` of the
identifier (`guid |= uint64(byte) << (i * 8)`). -/
def readGuidLoop (mask : Nat) : List Nat → Nat → Packet → Option (Nat × Packet)
  | [], acc, p => some (acc, p)
  | i :: is, acc, p =>
    if mask.testBit i then
      match readUInt8 p with
      | none => none
      | some (b, p') => readGuidLoop mask is (acc ||| (b <<< (i * 8))) p'
    else readGuidLoop mask is acc p

/-- `UpdateObjectParser::readPackedGuid`: read one mask byte; a zero mask
returns identifier 0 at once; otherwise loop over bit positions 0–7. -/
def readPackedGuid (p : Packet) : Option (Nat × Packet) := do
  let (mask, p) ← readUInt8 p
  if mask = 0 then some (0, p)
  else readGuidLoop mask (List.range 8) 0 p

/-- Byte `i` (little-endian position) of a 64-bit identifier. -/
def guidByte (g i : Nat) : Nat := g >>> (i * 8) % 256

/-- Modelled from the spec: the mask byte of the reference packed-identifier
encoding — bit `i` is set exactly when byte position `i` of the identifier is
non-zero (glossary: "a leading bitmask to indicate which byte positions are
non-zero and present"). `packedGuidMask g n` covers byte positions below `n`. -/
def packedGuidMask (g : Nat) : Nat → Nat
  | 0 => 0
  | n + 1 => 2 ^ n * (if guidByte g n ≠ 0 then 1 else 0) + packedGuidMask g n

/-- Modelled from the spec: the payload of the reference packed-identifier
encoding — the non-zero bytes of the identifier, in byte-position order. -/
def packedGuidBytes (g : Nat) (is : List Nat) : List Nat :=
  is.filterMap fun i => if guidByte g i ≠ 0 then some (guidByte g i) else none

/-- Modelled from the spec: the reference packed-identifier encoding — one
mask byte, then one byte for each set mask bit. -/
def encodePackedGuid (g : Nat) : List Nat :=
  packedGuidMask g 8 :: packedGuidBytes g (List.range 8)

/-- The value reconstructed by OR-ing the identifier's bytes back into their
positions, over a list of byte positions. -/
def collectGuid (g : Nat) : List Nat → Nat
  | [] => 0
  | i :: is => (guidByte g i <<< (i * 8)) ||| collectGuid g is

/-! ## Bitmask field decoding (`UpdateObjectParser::parseUpdateFields`,
src/game/world_packets.cpp lines 523–557). -/

/-- The inner loop of `parseUpdateFields` for one mask word: for each bit in
order, if `mask & (1 << bit)` is set, read one 32-bit value and record it at
global field index `blockIdx * 32 + bit`. -/
def readFieldsForWord (blockIdx mask : Nat) :
    List Nat → List (Nat × Nat) → Packet → Option (List (Nat × Nat) × Packet)
  | [], fields, p => some (fields, p)
  | bit :: bits, fields, p =>
    if mask.testBit bit then
      match readUInt32 p with
      | none => none
      | some (v, p') =>
          readFieldsForWord blockIdx mask bits (fields ++ [(blockIdx * 32 + bit, v)]) p'
    else readFieldsForWord blockIdx mask bits fields p

/-- The first loop of `parseUpdateFields`: read `blockCount` 32-bit mask
words. -/
def readMaskWords : Nat → Packet → Option (List Nat × Packet)
  | 0, p => some ([], p)
  | n + 1, p =>
    match readUInt32 p with
    | none => none
    | some (w, p') =>
      match readMaskWords n p' with
      | none => none
      | some (ws, p'') => some (w :: ws, p'')

/-- The second loop of `parseUpdateFields`: for each mask word in order, run
the bit loop over bits 0–31. -/
def readAllFields :
    List Nat → Nat → List (Nat × Nat) → Packet → Option (List (Nat × Nat) × Packet)
  | [], _, fields, p => some (fields, p)
  | m :: ms, blockIdx, fields, p =>
    match readFieldsForWord blockIdx m (List.range 32) fields p with
    | none => none
    | some (fields', p') => readAllFields ms (blockIdx + 1) fields' p'

/-- `UpdateObjectParser::parseUpdateFields`: read one block-count byte
(returning at once with no fields when it is zero), then that many 32-bit
mask words, then one 32-bit value per set mask bit. -/
def parseUpdateFields (p : Packet) : Option (List (Nat × Nat) × Packet) :=
  match readUInt8 p with
  | none => none
  | some (blockCount, p') =>
    if blockCount = 0 then some ([], p')
    else
      match readMaskWords blockCount p' with
      | none => none
      | some (masks, p'') => readAllFields masks 0 [] p''

/-- The set bit positions of a 32-bit mask word, least-significant first. -/
def maskBitsLSB (w : Nat) : List Nat :=
  (List.range 32).filter fun b => w.testBit b

/-- Reference decoding order, following the spec's words: "for every set bit
across all mask words (0-based global bit index = `wordIndex*32 + bitIndex`)
... order of value reads follows mask-word order then bit order within a
word (least-significant bit first)". -/
def specFieldIndices (blockIdx : Nat) : List Nat → List Nat
  | [] => []
  | w :: ws =>
    (maskBitsLSB w).map (fun b => blockIdx * 32 + b) ++ specFieldIndices (blockIdx + 1) ws

/-! ## SHA-1

Modelled from the spec: the digest used throughout the handshake
(`auth::Crypto::sha1`, backed by OpenSSL in the source, not part of the
source tree). This is the standard SHA-1 over byte lists; words are `Nat`
values kept below `2 ^ 32` explicitly. -/

def rotl32 (n x : Nat) : Nat := ((x <<< n) ||| (x >>> (32 - n))) % 2 ^ 32

/-- Big-endian serialization of `x` into `n` bytes. -/
def toBytesBE (n x : Nat) : List Nat :=
  (List.range n).reverse.map fun i => x >>> (8 * i) % 256

def sha1PadCount (len : Nat) : Nat := (55 + 64 - len % 64) % 64

def sha1Pad (msg : List Nat) : List Nat :=
  msg ++ 0x80 :: (List.replicate (sha1PadCount msg.length) 0 ++ toBytesBE 8 (8 * msg.length))

def chunks64 : Nat → List Nat → List (List Nat)
  | 0, _ => []
  | _, [] => []
  | fuel + 1, l => l.take 64 :: chunks64 fuel (l.drop 64)

def wordBE (c : List Nat) (i : Nat) : Nat :=
  c.getD (4 * i) 0 * 2 ^ 24 + c.getD (4 * i + 1) 0 * 2 ^ 16 +
    c.getD (4 * i + 2) 0 * 2 ^ 8 + c.getD (4 * i + 3) 0

def sha1Schedule (c : List Nat) : List Nat :=
  let w16 := (List.range 16).map (wordBE c)
  (List.range 64).foldl
    (fun w i =>
      w ++ [rotl32 1 ((((w.getD (i + 13) 0).xor (w.getD (i + 8) 0)).xor
        (w.getD (i + 2) 0)).xor (w.getD i 0))])
    w16

def sha1F (t b c d : Nat) : Nat :=
  if t < 20 then (b &&& c) ||| ((b.xor 0xFFFFFFFF) &&& d)
  else if t < 40 then (b.xor c).xor d
  else if t < 60 then (b &&& c) ||| (b &&& d) ||| (c &&& d)
  else (b.xor c).xor d

def sha1K (t : Nat) : Nat :=
  if t < 20 then 0x5A827999
  else if t < 40 then 0x6ED9EBA1
  else if t < 60 then 0x8F1BBCDC
  else 0xCA62C1D6

def sha1Round (w : List Nat) (st : Nat × Nat × Nat × Nat × Nat) (t : Nat) :
    Nat × Nat × Nat × Nat × Nat :=
  let (a, b, c, d, e) := st
  let temp := (rotl32 5 a + sha1F t b c d + e + sha1K t + w.getD t 0) % 2 ^ 32
  (temp, a, rotl32 30 b, c, d)

def sha1Chunk (h : Nat × Nat × Nat × Nat × Nat) (c : List Nat) :
    Nat × Nat × Nat × Nat × Nat :=
  let w := sha1Schedule c
  let r := (List.range 80).foldl (sha1Round w) h
  ((h.1 + r.1) % 2 ^ 32, (h.2.1 + r.2.1) % 2 ^ 32, (h.2.2.1 + r.2.2.1) % 2 ^ 32,
    (h.2.2.2.1 + r.2.2.2.1) % 2 ^ 32, (h.2.2.2.2 + r.2.2.2.2) % 2 ^ 32)

def sha1 (msg : List Nat) : List Nat :=
  let padded := sha1Pad msg
  let hs := (chunks64 padded.length padded).foldl sha1Chunk
    (0x67452301, 0xEFCDAB89, 0x98BADCFE, 0x10325476, 0xC3D2E1F0)
  toBytesBE 4 hs.1 ++ toBytesBE 4 hs.2.1 ++ toBytesBE 4 hs.2.2.1 ++
    toBytesBE 4 hs.2.2.2.1 ++ toBytesBE 4 hs.2.2.2.2

/-! ## Further cursor primitives used by the world-packet parsers
(modelled from the spec, §4.4, like `readUInt8`/`readUInt32` above). -/

/-- Modelled from the spec: read a little-endian 16-bit integer. -/
def readUInt16 (p : Packet) : Option (Nat × Packet) := do
  let (b0, p) ← readUInt8 p
  let (b1, p) ← readUInt8 p
  some (b0 + b1 * 256, p)

/-- Modelled from the spec: read a 32-bit float; the bit pattern is kept raw
(`Nat`), since no claim interprets coordinate values numerically. -/
def readFloat (p : Packet) : Option (Nat × Packet) := readUInt32 p

/-- Bytes of a null-terminated string up to (and counting) the terminator. -/
def takeUntilZero : List Nat → Option (List Nat × Nat)
  | [] => none
  | 0 :: _ => some ([], 1)
  | b :: t =>
    match takeUntilZero t with
    | none => none
    | some (s, n) => some (b :: s, n + 1)

/-- Modelled from the spec: read a null-terminated string (as its bytes). -/
def readString (p : Packet) : Option (List Nat × Packet) :=
  match takeUntilZero (p.data.drop p.readPos) with
  | none => none
  | some (s, n) => some (s, { p with readPos := p.readPos + n })

/-- Run a reader `n` times, collecting results (loop helper for parsers). -/
def readN {α : Type} (reader : Packet → Option (α × Packet)) :
    Nat → Packet → Option (List α × Packet)
  | 0, p => some ([], p)
  | n + 1, p =>
    match reader p with
    | none => none
    | some (a, p') =>
      match readN reader n p' with
      | none => none
      | some (as0, p'') => some (a :: as0, p'')

/-! ## World session data model (src/include/game/game_handler.hpp and the
structures of game/world_packets.hpp; the latter header is not in the source
tree, so its plain-data records are reconstructed from their use sites in
world_packets.cpp / game_handler.cpp).

Opcode and enum numeric values come from headers absent from the source tree
(game/opcodes.hpp, game/world_packets.hpp); the standard protocol values are
used — no claim depends on the particular numbers, only on their
distinctness. -/

def SMSG_AUTH_CHALLENGE : Nat := 0x1EC

def SMSG_AUTH_RESPONSE : Nat := 0x1EE

def SMSG_CHAR_ENUM : Nat := 0x3B

def SMSG_LOGIN_VERIFY_WORLD : Nat := 0x236

def SMSG_ACCOUNT_DATA_TIMES : Nat := 0x209

def SMSG_MOTD : Nat := 0x33D

def SMSG_PONG : Nat := 0x1DD

def SMSG_UPDATE_OBJECT : Nat := 0xA9

def SMSG_DESTROY_OBJECT : Nat := 0xAA

def SMSG_MESSAGECHAT : Nat := 0x96

def CMSG_AUTH_SESSION : Nat := 0x1ED

/-- `UpdateType` discriminants (world_packets.hpp, reconstructed; standard
protocol values). -/
def UPDATETYPE_VALUES : Nat := 0

def UPDATETYPE_MOVEMENT : Nat := 1

def UPDATETYPE_CREATE_OBJECT : Nat := 2

def UPDATETYPE_CREATE_OBJECT2 : Nat := 3

def UPDATETYPE_OUT_OF_RANGE_OBJECTS : Nat := 4

def UPDATETYPE_NEAR_OBJECTS : Nat := 5

/-- `AuthResult::OK` (standard protocol value 0x0C). -/
def AUTH_OK : Nat := 0x0C

/-- `WorldState` (game_handler.hpp lines 20–33). -/
inductive WorldState where
  | DISCONNECTED
  | CONNECTING
  | CONNECTED
  | CHALLENGE_RECEIVED
  | AUTH_SENT
  | AUTHENTICATED
  | READY
  | CHAR_LIST_REQUESTED
  | CHAR_LIST_RECEIVED
  | ENTERING_WORLD
  | IN_WORLD
  | FAILED
deriving DecidableEq

/-- Insert-or-overwrite into an association list (the `std::map` field
mapping and the entity table). -/
def setAssoc {α : Type} (l : List (Nat × α)) (k : Nat) (v : α) : List (Nat × α) :=
  match l with
  | [] => [(k, v)]
  | (k', v') :: t => if k' = k then (k, v) :: t else (k', v') :: setAssoc t k v

def getAssoc {α : Type} (l : List (Nat × α)) (k : Nat) : Option α :=
  match l with
  | [] => none
  | (k', v') :: t => if k' = k then some v' else getAssoc t k

def removeAssoc {α : Type} (l : List (Nat × α)) (k : Nat) : List (Nat × α) :=
  match l with
  | [] => []
  | (k', v') :: t => if k' = k then removeAssoc t k else (k', v') :: removeAssoc t k

def hasAssoc {α : Type} (l : List (Nat × α)) (k : Nat) : Bool :=
  (getAssoc l k).isSome

/-- An entity record: identifier, object-type tag, field mapping, optional
position+orientation (raw 32-bit float patterns). -/
structure Entity where
  guid : Nat
  objType : Nat
  fields : List (Nat × Nat)
  pos : Option (Nat × Nat × Nat × Nat)
deriving DecidableEq

def Entity.setField (e : Entity) (idx val : Nat) : Entity :=
  { e with fields := setAssoc e.fields idx val }

def Entity.setPosition (e : Entity) (x y z o : Nat) : Entity :=
  { e with pos := some (x, y, z, o) }

/-- One parsed update block (`UpdateBlock` of world_packets.hpp,
reconstructed from its use sites). -/
structure UpdateBlock where
  updateType : Nat
  guid : Nat
  objectType : Nat
  x : Nat
  y : Nat
  z : Nat
  orientation : Nat
  hasMovement : Bool
  fields : List (Nat × Nat)
deriving DecidableEq

def UpdateBlock.empty : UpdateBlock := ⟨0, 0, 0, 0, 0, 0, 0, false, []⟩

/-- `UpdateObjectData`: block count, out-of-range identifiers, blocks. -/
structure UpdateObjectData where
  blockCount : Nat
  outOfRangeGuids : List Nat
  blocks : List UpdateBlock
deriving DecidableEq

/-- A parsed character summary (`Character`, reconstructed from
CharEnumParser::parse's reads; floats kept as raw patterns). -/
structure Character where
  guid : Nat
  name : List Nat
  race : Nat
  characterClass : Nat
  gender : Nat
  appearanceBytes : Nat
  facialFeatures : Nat
  level : Nat
  zoneId : Nat
  mapId : Nat
  x : Nat
  y : Nat
  z : Nat
  guildId : Nat
  flags : Nat
  petDisplayModel : Nat
  petLevel : Nat
  petFamily : Nat
  equipment : List (Nat × Nat × Nat)
deriving DecidableEq

/-- A parsed chat message (`MessageChatData`, reconstructed from
MessageChatParser::parse's reads). -/
structure MessageChatData where
  chatType : Nat
  language : Nat
  senderGuid : Nat
  receiverGuid : Nat
  senderName : List Nat
  receiverName : List Nat
  channelName : List Nat
  message : List Nat
  chatTag : Nat
deriving DecidableEq

/-- The world-session state: the `GameHandler` members that the packet
handlers read or mutate (log strings and latency bookkeeping are not
modelled). -/
structure Session where
  state : WorldState
  sessionKey : List Nat
  accountName : List Nat
  build : Nat
  clientSeed : Nat
  serverSeed : Nat
  characters : List Character
  entities : List (Nat × Entity)
  chatHistory : List MessageChatData
  pingSequence : Nat
  tabCycleStale : Bool
deriving DecidableEq

/-- Protocol-visible actions emitted by the session machine, in program
order (log output is not modelled; a tolerated parse failure surfaces as
`decodeFailure`, the single warning the code logs). -/
inductive Effect where
  | send (pkt : Packet)
  | initCipher (key : List Nat)
  | transportConnect
  | successCallback
  | failureCallback
  | decodeFailure
deriving DecidableEq

/-- `GameHandler::fail`: move to the terminal FAILED state and fire the
failure callback (the human-readable reason is a log string, not modelled). -/
def Session.fail (s : Session) : Session × List Effect :=
  ({ s with state := WorldState.FAILED }, [Effect.failureCallback])

/-! ## Outbound packet builders (world_packets.cpp). -/

/-- `::toupper` over a byte, as applied to the account name. -/
def upperByte (b : Nat) : Nat := if 97 ≤ b ∧ b ≤ 122 then b - 32 else b

/-- `AuthSessionPacket::computeAuthHash` (world_packets.cpp lines 71–110):
SHA-1 over account name, four null bytes, client seed, server seed and the
40-byte session key. -/
def computeAuthHash (accountName : List Nat) (clientSeed serverSeed : Nat)
    (sessionKey : List Nat) : List Nat :=
  sha1 (accountName ++ [0, 0, 0, 0] ++ wordLE clientSeed ++ wordLE serverSeed ++ sessionKey)

/-- `AuthSessionPacket::build` (world_packets.cpp lines 13–69): build number,
zero, upper-cased null-terminated account name, zero, client seed, five
zeros, the 20-byte auth hash, and a zero addon CRC. -/
def authSessionPacket (build : Nat) (accountName : List Nat)
    (clientSeed : Nat) (sessionKey : List Nat) (serverSeed : Nat) : Packet :=
  let upperAccount := accountName.map upperByte
  let authHash := computeAuthHash upperAccount clientSeed serverSeed sessionKey
  ⟨CMSG_AUTH_SESSION,
    wordLE build ++ wordLE 0 ++ (upperAccount ++ [0]) ++ wordLE 0 ++
      wordLE clientSeed ++ (wordLE 0 ++ wordLE 0 ++ wordLE 0 ++ wordLE 0 ++ wordLE 0) ++
      authHash ++ wordLE 0,
    0⟩

/-! ## World-packet parsers (world_packets.cpp). -/

/-- `AuthChallengeParser::parse` (lines 112–133): requires at least 8 bytes,
then reads `unknown1` and the server seed. -/
def parseAuthChallenge (p : Packet) : Option (Nat × Nat) :=
  if p.size < 8 then none
  else
    match readUInt32 p with
    | none => none
    | some (unknown1, p1) =>
      match readUInt32 p1 with
      | none => none
      | some (serverSeed, _) => some (unknown1, serverSeed)

/-- Modelled from the spec: `AuthChallengeData::isValid` is declared in the
absent world_packets.hpp; a challenge is taken to be valid when the server
seed is non-zero. -/
def authChallengeIsValid (serverSeed : Nat) : Bool := serverSeed ≠ 0

/-- `AuthResponseParser::parse` (lines 135–150): requires at least 1 byte,
then reads the result code. -/
def parseAuthResponse (p : Packet) : Option Nat :=
  if p.size < 1 then none
  else
    match readUInt8 p with
    | none => none
    | some (r, _) => some r

/-- Reads 1–8 of one character record of `CharEnumParser::parse`
(lines 223–243): identity, appearance and level. -/
def readCharacterIdent (p : Packet) :
    Option ((Nat × List Nat × Nat × Nat × Nat × Nat × Nat × Nat) × Packet) := do
  let (guid, p) ← readUInt64 p
  let (name, p) ← readString p
  let (race, p) ← readUInt8 p
  let (cls, p) ← readUInt8 p
  let (gender, p) ← readUInt8 p
  let (appearance, p) ← readUInt32 p
  let (facial, p) ← readUInt8 p
  let (level, p) ← readUInt8 p
  some ((guid, name, race, cls, gender, appearance, facial, level), p)

/-- Reads 9–15 of one character record (lines 244–255): location and
affiliations. -/
def readCharacterLocation (p : Packet) :
    Option ((Nat × Nat × Nat × Nat × Nat × Nat × Nat) × Packet) := do
  let (zoneId, p) ← readUInt32 p
  let (mapId, p) ← readUInt32 p
  let (x, p) ← readFloat p
  let (y, p) ← readFloat p
  let (z, p) ← readFloat p
  let (guildId, p) ← readUInt32 p
  let (flags, p) ← readUInt32 p
  some ((zoneId, mapId, x, y, z, guildId, flags), p)

/-- Remaining reads of one character record (lines 256–274): skipped
customization fields, pet data and the 23 equipment slots. -/
def readCharacterPetEquip (p : Packet) :
    Option ((Nat × Nat × Nat × List (Nat × Nat × Nat)) × Packet) := do
  let (_, p) ← readUInt32 p
  let (_, p) ← readUInt8 p
  let (petModel, p) ← readUInt32 p
  let (petLevel, p) ← readUInt32 p
  let (petFamily, p) ← readUInt32 p
  let (equipment, p) ← readN
    (fun q => do
      let (dm, q) ← readUInt32 q
      let (it, q) ← readUInt8 q
      let (en, q) ← readUInt32 q
      some ((dm, it, en), q)) 23 p
  some ((petModel, petLevel, petFamily, equipment), p)

/-- One character record of `CharEnumParser::parse` (lines 223–293). -/
def readCharacter (p : Packet) : Option (Character × Packet) := do
  let ((guid, name, race, cls, gender, appearance, facial, level), p) ← readCharacterIdent p
  let ((zoneId, mapId, x, y, z, guildId, flags), p) ← readCharacterLocation p
  let ((petModel, petLevel, petFamily, equipment), p) ← readCharacterPetEquip p
  some (⟨guid, name, race, cls, gender, appearance, facial, level, zoneId, mapId,
    x, y, z, guildId, flags, petModel, petLevel, petFamily, equipment⟩, p)

/-- `CharEnumParser::parse` (lines 214–298): a count byte then that many
character records. -/
def parseCharEnum (p : Packet) : Option (List Character) :=
  match readUInt8 p with
  | none => none
  | some (count, p1) =>
    match readN readCharacter count p1 with
    | none => none
    | some (cs, _) => some cs

/-- `LoginVerifyWorldParser::parse` (lines 312–335): requires at least 20
bytes, then map id, position and orientation. -/
def parseLoginVerifyWorld (p : Packet) : Option (Nat × Nat × Nat × Nat × Nat) :=
  if p.size < 20 then none
  else do
    let (mapId, p) ← readUInt32 p
    let (x, p) ← readFloat p
    let (y, p) ← readFloat p
    let (z, p) ← readFloat p
    let (o, _) ← readFloat p
    some (mapId, x, y, z, o)

/-- Modelled from the spec: `LoginVerifyWorldData::isValid` is declared in
the absent world_packets.hpp; the spec places no constraint on it, so it is
taken to accept all parsed data. -/
def loginVerifyWorldIsValid (_mapId _x _y _z _o : Nat) : Bool := true

/-- `AccountDataTimesParser::parse` (lines 337–363): requires at least 37
bytes, then server time, one unknown byte and eight slot timestamps. -/
def parseAccountDataTimes (p : Packet) : Option (Nat × Nat × List Nat) :=
  if p.size < 37 then none
  else do
    let (serverTime, p) ← readUInt32 p
    let (unknown, p) ← readUInt8 p
    let (times, _) ← readN readUInt32 8 p
    some (serverTime, unknown, times)

/-- `MotdParser::parse` (lines 365–390): requires at least 4 bytes, then a
line count and that many null-terminated lines. -/
def parseMotd (p : Packet) : Option (List (List Nat)) :=
  if p.size < 4 then none
  else
    match readUInt32 p with
    | none => none
    | some (lineCount, p1) =>
      match readN readString lineCount p1 with
      | none => none
      | some (lines, _) => some lines

/-- `PongParser::parse` (lines 408–423): requires at least 4 bytes, then the
echoed sequence number. -/
def parsePong (p : Packet) : Option Nat :=
  if p.size < 4 then none
  else
    match readUInt32 p with
    | none => none
    | some (seq, _) => some seq

/-- `DestroyObjectParser::parse` (lines 672–690): requires at least 9 bytes,
then the identifier and a despawn/death flag byte. -/
def parseDestroyObject (p : Packet) : Option (Nat × Bool) :=
  if p.size < 9 then none
  else do
    let (guid, p) ← readUInt64 p
    let (isDeath, _) ← readUInt8 p
    some (guid, isDeath ≠ 0)

/-- `ChatType` discriminants used by MessageChatParser::parse (from the
absent world_packets.hpp; standard protocol values). -/
def CHAT_MSG_MONSTER_SAY : Nat := 0x0C

def CHAT_MSG_MONSTER_YELL : Nat := 0x0E

def CHAT_MSG_MONSTER_EMOTE : Nat := 0x10

def CHAT_MSG_WHISPER_INFORM : Nat := 0x09

def CHAT_MSG_CHANNEL : Nat := 0x11

def CHAT_MSG_ACHIEVEMENT : Nat := 0x30

def CHAT_MSG_GUILD_ACHIEVEMENT : Nat := 0x31

/-- `MessageChatParser::parse` (lines 722–825): header, type-specific
fields, a length-prefixed message and the chat tag. -/
def parseMessageChat (p : Packet) : Option MessageChatData :=
  if p.size < 15 then none
  else do
    let (t, p) ← readUInt8 p
    let (lang, p) ← readUInt32 p
    let (senderGuid, p) ← readUInt64 p
    let (_, p) ← readUInt32 p
    let (senderName, receiverGuid, receiverName, channelName, p) ←
      if t = CHAT_MSG_MONSTER_SAY ∨ t = CHAT_MSG_MONSTER_YELL ∨
          t = CHAT_MSG_MONSTER_EMOTE then do
        let (nameLen, p) ← readUInt32 p
        let (name, p) ←
          if 0 < nameLen ∧ nameLen < 256 then do
            let (bs, p) ← readN readUInt8 nameLen p
            some (bs, p)
          else some ([], p)
        let (rguid, p) ← readUInt64 p
        some (name, rguid, ([] : List Nat), ([] : List Nat), p)
      else if t = CHAT_MSG_WHISPER_INFORM then do
        let (rname, p) ← readString p
        some (([] : List Nat), 0, rname, ([] : List Nat), p)
      else if t = CHAT_MSG_CHANNEL then do
        let (cname, p) ← readString p
        some (([] : List Nat), 0, ([] : List Nat), cname, p)
      else if t = CHAT_MSG_ACHIEVEMENT ∨ t = CHAT_MSG_GUILD_ACHIEVEMENT then do
        let (_, p) ← readUInt32 p
        some (([] : List Nat), 0, ([] : List Nat), ([] : List Nat), p)
      else some (([] : List Nat), 0, ([] : List Nat), ([] : List Nat), p)
    let (messageLen, p) ← readUInt32 p
    let (message, p) ←
      if 0 < messageLen ∧ messageLen < 8192 then do
        let (bs, p) ← readN readUInt8 messageLen p
        some (bs, p)
      else some (([] : List Nat), p)
    let (chatTag, _) ← readUInt8 p
    some ⟨t, lang, senderGuid, receiverGuid, senderName, receiverName,
      channelName, message, chatTag⟩

/-! ## Entity snapshot/delta parsing (`UpdateObjectParser`,
world_packets.cpp lines 476–670). -/

/-- `parseMovementBlock` (lines 496–521): flags, flags2 and timestamp are
read and discarded; position and orientation are stored. -/
def parseMovementBlock (p : Packet) (block : UpdateBlock) :
    Option (UpdateBlock × Packet) := do
  let (_, p) ← readUInt32 p
  let (_, p) ← readUInt16 p
  let (_, p) ← readUInt32 p
  let (x, p) ← readFloat p
  let (y, p) ← readFloat p
  let (z, p) ← readFloat p
  let (o, p) ← readFloat p
  some ({ block with x := x, y := y, z := z, orientation := o, hasMovement := true }, p)

/-- `parseUpdateBlock` (lines 559–620): dispatch on the update-type byte;
unknown types are a parse failure. -/
def parseUpdateBlock (p : Packet) : Option (UpdateBlock × Packet) :=
  match readUInt8 p with
  | none => none
  | some (t, p1) =>
    if t = UPDATETYPE_VALUES then
      match readPackedGuid p1 with
      | none => none
      | some (g, p2) =>
        match parseUpdateFields p2 with
        | none => none
        | some (fields, p3) =>
          some ({ UpdateBlock.empty with updateType := t, guid := g, fields := fields }, p3)
    else if t = UPDATETYPE_MOVEMENT then
      match readPackedGuid p1 with
      | none => none
      | some (g, p2) =>
        parseMovementBlock p2 { UpdateBlock.empty with updateType := t, guid := g }
    else if t = UPDATETYPE_CREATE_OBJECT ∨ t = UPDATETYPE_CREATE_OBJECT2 then
      match readPackedGuid p1 with
      | none => none
      | some (g, p2) =>
        match readUInt8 p2 with
        | none => none
        | some (objType, p3) =>
          match parseMovementBlock p3
            { UpdateBlock.empty with updateType := t, guid := g, objectType := objType } with
          | none => none
          | some (block, p4) =>
            match parseUpdateFields p4 with
            | none => none
            | some (fields, p5) => some ({ block with fields := fields }, p5)
    else if t = UPDATETYPE_OUT_OF_RANGE_OBJECTS ∨ t = UPDATETYPE_NEAR_OBJECTS then
      some ({ UpdateBlock.empty with updateType := t }, p1)
    else none

/-- The out-of-range identifier loop of `UpdateObjectParser::parse`. -/
def readGuids : Nat → Packet → Option (List Nat × Packet)
  | 0, p => some ([], p)
  | n + 1, p =>
    match readPackedGuid p with
    | none => none
    | some (g, p') =>
      match readGuids n p' with
      | none => none
      | some (gs, p'') => some (g :: gs, p'')

/-- The block loop of `UpdateObjectParser::parse`. -/
def readBlocks : Nat → Packet → Option (List UpdateBlock × Packet)
  | 0, p => some ([], p)
  | n + 1, p =>
    match parseUpdateBlock p with
    | none => none
    | some (b, p') =>
      match readBlocks n p' with
      | none => none
      | some (bs, p'') => some (b :: bs, p'')

/-- `UpdateObjectParser::parse` (lines 622–670): block count; a peeked
out-of-range section (rewinding one byte when the peeked type does not
match); then the update blocks — any block failure fails the whole parse. -/
def parseUpdateObject (p : Packet) : Option UpdateObjectData :=
  match readUInt32 p with
  | none => none
  | some (blockCount, p1) =>
    let scan : Option (List Nat × Packet) :=
      if p1.readPos + 1 ≤ p1.size then
        match readUInt8 p1 with
        | none => none
        | some (firstByte, p2) =>
          if firstByte = UPDATETYPE_OUT_OF_RANGE_OBJECTS then
            match readUInt32 p2 with
            | none => none
            | some (cnt, p3) => readGuids cnt p3
          else some ([], p2.setReadPos (p2.readPos - 1))
      else some ([], p1)
    match scan with
    | none => none
    | some (oorGuids, p4) =>
      match readBlocks blockCount p4 with
      | none => none
      | some (blocks, _) => some ⟨blockCount, oorGuids, blocks⟩

/-! ## Session handlers (src/game/game_handler.cpp). -/

/-- `GameHandler::sendAuthSession` (lines 225–249): build and send
CMSG_AUTH_SESSION (not yet encrypted), then initialize the RC4 header
encryption with the session key, then move to AUTH_SENT. The effect list
records program order: the send strictly precedes the cipher
initialization, and nothing else is sent or interpreted in between. -/
def sendAuthSession (s : Session) : Session × List Effect :=
  let pkt := authSessionPacket s.build s.accountName s.clientSeed s.sessionKey s.serverSeed
  ({ s with state := WorldState.AUTH_SENT },
    [Effect.send pkt, Effect.initCipher s.sessionKey])

/-- `GameHandler::handleAuthChallenge` (lines 201–223): parse, validate,
store the server seed, move to CHALLENGE_RECEIVED and send the auth
session. -/
def handleAuthChallenge (s : Session) (p : Packet) : Session × List Effect :=
  match parseAuthChallenge p with
  | none => s.fail
  | some (_, serverSeed) =>
    if authChallengeIsValid serverSeed then
      sendAuthSession
        { s with
            serverSeed := serverSeed,
            state := WorldState.CHALLENGE_RECEIVED }
    else s.fail

/-- `GameHandler::handleAuthResponse` (lines 251–282): a non-OK result is a
session failure; success passes through AUTHENTICATED to READY and fires
the success callback. -/
def handleAuthResponse (s : Session) (p : Packet) : Session × List Effect :=
  match parseAuthResponse p with
  | none => s.fail
  | some r =>
    if r = AUTH_OK then ({ s with state := WorldState.READY }, [Effect.successCallback])
    else s.fail

/-- `GameHandler::handleCharEnum` (lines 302–336). -/
def handleCharEnum (s : Session) (p : Packet) : Session × List Effect :=
  match parseCharEnum p with
  | none => s.fail
  | some cs =>
    ({ s with characters := cs, state := WorldState.CHAR_LIST_RECEIVED }, [])

/-- `GameHandler::handleLoginVerifyWorld` (lines 370–403). -/
def handleLoginVerifyWorld (s : Session) (p : Packet) : Session × List Effect :=
  match parseLoginVerifyWorld p with
  | none => s.fail
  | some (mapId, x, y, z, o) =>
    if loginVerifyWorldIsValid mapId x y z o then
      ({ s with state := WorldState.IN_WORLD }, [])
    else s.fail

/-- `GameHandler::handleAccountDataTimes` (lines 405–415): a parse failure
is only a warning. -/
def handleAccountDataTimes (s : Session) (p : Packet) : Session × List Effect :=
  match parseAccountDataTimes p with
  | none => (s, [Effect.decodeFailure])
  | some _ => (s, [])

/-- `GameHandler::handleMotd` (lines 417–435): a parse failure is only a
warning; the lines are only logged. -/
def handleMotd (s : Session) (p : Packet) : Session × List Effect :=
  match parseMotd p with
  | none => (s, [Effect.decodeFailure])
  | some _ => (s, [])

/-- `GameHandler::handlePong` (lines 453–470): a parse failure or a
sequence mismatch is only a warning. -/
def handlePong (s : Session) (p : Packet) : Session × List Effect :=
  match parsePong p with
  | none => (s, [Effect.decodeFailure])
  | some _ => (s, [])

/-- `GameHandler::handleMessageChat` (lines 687–735): append to the chat
history, trimming it to `maxChatHistory = 100` entries. -/
def handleMessageChat (s : Session) (p : Packet) : Session × List Effect :=
  match parseMessageChat p with
  | none => (s, [Effect.decodeFailure])
  | some d =>
    let h := s.chatHistory ++ [d]
    ({ s with chatHistory := if 100 < h.length then h.tail else h }, [])

/-- `GameHandler::handleDestroyObject` (lines 644–664). -/
def handleDestroyObject (s : Session) (p : Packet) : Session × List Effect :=
  match parseDestroyObject p with
  | none => (s, [Effect.decodeFailure])
  | some (guid, _) =>
    let s1 :=
      if hasAssoc s.entities guid then
        { s with entities := removeAssoc s.entities guid }
      else s
    ({ s1 with tabCycleStale := true }, [])

/-- Application of one update block to the entity table
(`GameHandler::handleUpdateObject`, lines 562–638): snapshots create or
replace, VALUES and MOVEMENT mutate an existing entity and warn on an
unknown identifier. -/
def applyBlock (ents : List (Nat × Entity)) (b : UpdateBlock) : List (Nat × Entity) :=
  if b.updateType = UPDATETYPE_CREATE_OBJECT ∨ b.updateType = UPDATETYPE_CREATE_OBJECT2 then
    let e0 : Entity := ⟨b.guid, b.objectType, [], none⟩
    let e1 := if b.hasMovement then e0.setPosition b.x b.y b.z b.orientation else e0
    let e2 := b.fields.foldl (fun e f => e.setField f.1 f.2) e1
    setAssoc ents b.guid e2
  else if b.updateType = UPDATETYPE_VALUES then
    match getAssoc ents b.guid with
    | none => ents
    | some e => setAssoc ents b.guid (b.fields.foldl (fun e f => e.setField f.1 f.2) e)
  else if b.updateType = UPDATETYPE_MOVEMENT then
    match getAssoc ents b.guid with
    | none => ents
    | some e => setAssoc ents b.guid (e.setPosition b.x b.y b.z b.orientation)
  else ents

/-- `GameHandler::handleUpdateObject` (lines 544–642): a failed parse is a
single warning and nothing is applied; otherwise out-of-range removals are
processed first, then the blocks in order. -/
def handleUpdateObject (s : Session) (p : Packet) : Session × List Effect :=
  match parseUpdateObject p with
  | none => (s, [Effect.decodeFailure])
  | some data =>
    let ents1 := data.outOfRangeGuids.foldl
      (fun es g => if hasAssoc es g then removeAssoc es g else es) s.entities
    let ents2 := data.blocks.foldl applyBlock ents1
    ({ s with entities := ents2, tabCycleStale := true }, [])

/-- `GameHandler::handlePacket` (lines 112–199): the dispatch switch over
`(currentState, opcode)`; an empty packet, a message in the wrong state or
an unknown opcode is only logged and discarded. -/
def handlePacket (s : Session) (p : Packet) : Session × List Effect :=
  if p.size < 1 then (s, [])
  else if p.opcode = SMSG_AUTH_CHALLENGE then
    if s.state = WorldState.CONNECTED then handleAuthChallenge s p else (s, [])
  else if p.opcode = SMSG_AUTH_RESPONSE then
    if s.state = WorldState.AUTH_SENT then handleAuthResponse s p else (s, [])
  else if p.opcode = SMSG_CHAR_ENUM then
    if s.state = WorldState.CHAR_LIST_REQUESTED then handleCharEnum s p else (s, [])
  else if p.opcode = SMSG_LOGIN_VERIFY_WORLD then
    if s.state = WorldState.ENTERING_WORLD then handleLoginVerifyWorld s p else (s, [])
  else if p.opcode = SMSG_ACCOUNT_DATA_TIMES then handleAccountDataTimes s p
  else if p.opcode = SMSG_MOTD then handleMotd s p
  else if p.opcode = SMSG_PONG then handlePong s p
  else if p.opcode = SMSG_UPDATE_OBJECT then
    if s.state = WorldState.IN_WORLD then handleUpdateObject s p else (s, [])
  else if p.opcode = SMSG_DESTROY_OBJECT then
    if s.state = WorldState.IN_WORLD then handleDestroyObject s p else (s, [])
  else if p.opcode = SMSG_MESSAGECHAT then
    if s.state = WorldState.IN_WORLD then handleMessageChat s p else (s, [])
  else (s, [])

/-- The `(state, opcode)` pairs that `handlePacket` routes to a handler:
the per-state guards of the switch, with SMSG_ACCOUNT_DATA_TIMES, SMSG_MOTD
and SMSG_PONG accepted in any state. -/
def validInState (st : WorldState) (opcode : Nat) : Bool :=
  if opcode = SMSG_AUTH_CHALLENGE then decide (st = WorldState.CONNECTED)
  else if opcode = SMSG_AUTH_RESPONSE then decide (st = WorldState.AUTH_SENT)
  else if opcode = SMSG_CHAR_ENUM then decide (st = WorldState.CHAR_LIST_REQUESTED)
  else if opcode = SMSG_LOGIN_VERIFY_WORLD then decide (st = WorldState.ENTERING_WORLD)
  else if opcode = SMSG_ACCOUNT_DATA_TIMES then true
  else if opcode = SMSG_MOTD then true
  else if opcode = SMSG_PONG then true
  else if opcode = SMSG_UPDATE_OBJECT then decide (st = WorldState.IN_WORLD)
  else if opcode = SMSG_DESTROY_OBJECT then decide (st = WorldState.IN_WORLD)
  else if opcode = SMSG_MESSAGECHAT then decide (st = WorldState.IN_WORLD)
  else false

/-- `GameHandler::connect` (lines 22–73): a session key that is not exactly
40 bytes fails the session before any transport work; otherwise the
credentials are stored and the transport connection is attempted (its
outcome is the `transportOk` argument, the return value of
`WorldSocket::connect`). -/
def connect (s : Session) (sessionKey accountName : List Nat)
    (build clientSeed : Nat) (transportOk : Bool) : Bool × Session × List Effect :=
  if sessionKey.length ≠ 40 then
    let r := s.fail
    (false, r.1, r.2)
  else
    let s1 :=
      { s with
          sessionKey := sessionKey,
          accountName := accountName,
          build := build,
          clientSeed := clientSeed,
          state := WorldState.CONNECTING }
    if transportOk then
      (true, { s1 with state := WorldState.CONNECTED }, [Effect.transportConnect])
    else
      let r := Session.fail s1
      (false, r.1, Effect.transportConnect :: r.2)

/-! ## Authentication stream framer

Modelled from the spec: `TCPSocket::tryParsePackets` /
`getExpectedPacketSize` are declared in src (part of the TCPSocket header)
but their implementation file is not in the source tree; the framer is
modelled from §4.5 of the spec and the packet-framing design document: an
append-only receive buffer, a per-opcode expected-size function that
tentatively reads header fields (returning "wait" while they are not yet
buffered), and a loop that slices out complete frames and never consumes an
incomplete one. -/

/-- Modelled from the spec: the per-opcode expected total frame size over
the buffered bytes; `none` means the size cannot be determined yet (or the
opcode is unknown) and parsing halts until more bytes arrive.
Opcode 0x00 (LOGON_CHALLENGE response): on success status, the g-length and
N-length fields determine the size (`36 + gLen + 1 + nLen + 32 + 16 + 1`);
on failure the frame is 3 bytes. Opcode 0x01 (LOGON_PROOF response): 22
bytes on success, 2 on failure. Anything else (including the unimplemented
0x10 REALM_LIST) halts parsing. -/
def expectedPacketSize (buf : List Nat) : Option Nat :=
  match buf.get? 0 with
  | none => none
  | some opcode =>
    if opcode = 0 then
      match buf.get? 2 with
      | none => none
      | some status =>
        if status = 0 then
          match buf.get? 35 with
          | none => none
          | some gLen =>
            match buf.get? (36 + gLen) with
            | none => none
            | some nLen => some (36 + gLen + 1 + nLen + 32 + 16 + 1)
        else some 3
    else if opcode = 1 then
      match buf.get? 1 with
      | none => none
      | some status => some (if status = 0 then 22 else 2)
    else none

/-- Modelled from the spec: the `tryParsePackets` loop — while the expected
size of the leading frame is known and fully buffered, slice it out and
continue; otherwise stop, leaving the buffer untouched. The fuel is an
upper bound on the number of iterations (each one consumes at least one
byte). -/
def drainFuel : Nat → List Nat → List (List Nat) × List Nat
  | 0, buf => ([], buf)
  | fuel + 1, buf =>
    match expectedPacketSize buf with
    | none => ([], buf)
    | some n =>
      if buf.length < n then ([], buf)
      else
        let r := drainFuel fuel (buf.drop n)
        (buf.take n :: r.1, r.2)

/-- One poll of the framer over a buffer: extract every complete frame. -/
def drain (buf : List Nat) : List (List Nat) × List Nat :=
  drainFuel buf.length buf

/-- Feeding one received chunk: append to the buffer, then extract. -/
def framerFeed (st : List (List Nat) × List Nat) (chunk : List Nat) :
    List (List Nat) × List Nat :=
  let r := drain (st.2 ++ chunk)
  (st.1 ++ r.1, r.2)

/-- A whole run of the framer over a sequence of received chunks, starting
from an empty buffer; returns all extracted frames in order and the
residual buffer. -/
def framerRun (chunks : List (List Nat)) : List (List Nat) × List Nat :=
  chunks.foldl framerFeed ([], [])

/-! ## SRP6a key-exchange engine

Modelled from the spec: the SRP implementation (`auth/srp.cpp`) is not part
of the source tree — only its design document is. The engine is modelled
from §4.2 of the spec and the SRP document: all wire byte arrays are
little-endian; `x = H(salt ‖ H(identity ‖ ":" ‖ secret))`;
`A = g^a mod N` serialized to 32 bytes; `u = H(A ‖ B)`;
`S = (B − 3·g^x mod N)^(a + u·x) mod N` (negative intermediates reduced
into range), serialized to 32 bytes; `K` interleaves the hashes of the
even- and odd-indexed bytes of `S`; `M1` and `M2` as in the spec. The
random 19-byte ephemeral `a` is an input of the model. -/

/-- Little-endian bytes to natural number. -/
def fromLE (l : List Nat) : Nat := l.foldr (fun b acc => acc * 256 + b) 0

/-- Natural number to exactly `n` little-endian bytes (zero-padded;
`BigNum::toArray(true, n)` for values below `2 ^ (8 n)`). -/
def toLE (n x : Nat) : List Nat := (List.range n).map fun i => x >>> (8 * i) % 256

/-- Fuel-driven square-and-multiply; `powModAux fuel b e n` equals
`b ^ e mod n` whenever `e < 2 ^ fuel`. -/
def powModAux : Nat → Nat → Nat → Nat → Nat
  | 0, _, _, n => 1 % n
  | fuel + 1, b, e, n =>
    if e = 0 then 1 % n
    else
      let h := powModAux fuel ((b * b) % n) (e / 2) n
      if e % 2 = 1 then (h * b) % n else h

/-- `BigNum::modPow` (OpenSSL `BN_mod_exp`), modelled as modular
exponentiation; the fuel covers any exponent below `2 ^ 4096`. -/
def powMod (b e n : Nat) : Nat := powModAux 4096 (b % n) e n

/-- Split a byte list into its even-indexed and odd-indexed bytes. -/
def deinterleave : List Nat → List Nat × List Nat
  | [] => ([], [])
  | [a] => ([a], [])
  | a :: b :: t =>
    let r := deinterleave t
    (a :: r.1, b :: r.2)

/-- Byte-by-byte interleaving of two lists (`K = [h1₀, h2₀, h1₁, h2₁, …]`). -/
def interleave : List Nat → List Nat → List Nat
  | [], ys => ys
  | x :: xs, [] => x :: xs
  | x :: xs, y :: ys => x :: y :: interleave xs ys

/-- Byte-wise XOR of two equal-length lists (`H(N) XOR H(g)`). -/
def xorBytes (a b : List Nat) : List Nat := (a.zip b).map fun p => p.1.xor p.2

/-- The artifacts the engine exposes after `feed`. -/
structure SRPResult where
  A : List Nat
  S : List Nat
  K : List Nat
  M1 : List Nat
  M2 : List Nat
deriving DecidableEq

/-- Modelled from the spec: `SRP::feed` — process the server challenge and
derive the client ephemeral, session key and proofs. -/
def srpFeed (identity secret B g N salt a : List Nat) : SRPResult :=
  let Nn := fromLE N
  let gn := fromLE g
  let Bn := fromLE B
  let x := fromLE (sha1 (salt ++ sha1 (identity ++ [0x3A] ++ secret)))
  let an := fromLE a
  let An := powMod gn an Nn
  let Abytes := toLE 32 An
  let u := fromLE (sha1 (Abytes ++ B))
  let gx := powMod gn x Nn
  let base := (((Bn : Int) - 3 * (gx : Int)) % (Nn : Int)).toNat
  let Sn := powMod base (an + u * x) Nn
  let Sbytes := toLE 32 Sn
  let halves := deinterleave Sbytes
  let K := interleave (sha1 halves.1) (sha1 halves.2)
  let M1 := sha1 (xorBytes (sha1 N) (sha1 g) ++ sha1 identity ++ salt ++ Abytes ++ B ++ K)
  let M2 := sha1 (Abytes ++ M1 ++ K)
  ⟨Abytes, Sbytes, K, M1, M2⟩

def srpTestN : List Nat :=
  [0xB7, 0x9B, 0x3E, 0x2A, 0x87, 0x82, 0x3C, 0xAB, 0x8F, 0x5E, 0xBF, 0xBF,
   0x8E, 0xB1, 0x01, 0x08, 0x53, 0x50, 0x06, 0x29, 0x8B, 0x5B, 0xAD, 0xBD,
   0x5B, 0x53, 0xE1, 0x89, 0x5E, 0x64, 0x4B, 0x89]

def srpTestB : List Nat :=
  [0x35, 0x54, 0xA3, 0x36, 0x98, 0x16, 0x17, 0x53, 0x78, 0x53, 0x76, 0x07,
   0x0F, 0x0C, 0x3D, 0x18, 0x39, 0xDC, 0x8F, 0x74, 0xC8, 0xBC, 0x6E, 0x99,
   0x7F, 0x82, 0x66, 0x77, 0xE3, 0x39, 0xA2, 0x67]

def srpTestSalt : List Nat :=
  [0x01, 0x02, 0x03, 0x04, 0x05, 0x06, 0x07, 0x08, 0x09, 0x0A, 0x0B, 0x0C,
   0x0D, 0x0E, 0x0F, 0x10, 0x11, 0x12, 0x13, 0x14, 0x15, 0x16, 0x17, 0x18,
   0x19, 0x1A, 0x1B, 0x1C, 0x1D, 0x1E, 0x1F, 0x20]

def srpTestA : List Nat := List.replicate 19 0xAB

/-- Reference session key for the test tuple, computed with an independent
SRP implementation. -/
def srpTestK : List Nat :=
  [0x89, 0xC0, 0x6E, 0x3A, 0x8D, 0x23, 0x28, 0xE8, 0x21, 0xD8, 0x82, 0xF6,
   0xCE, 0xA6, 0xEB, 0x35, 0x84, 0xE5, 0x85, 0xDC, 0x78, 0x1E, 0x1B, 0x29,
   0x7A, 0x24, 0xBF, 0x08, 0xCA, 0x5E, 0x0B, 0x67, 0x16, 0xFB, 0x62, 0xAA,
   0x6F, 0xA7, 0x03, 0xC7]

/-- Reference client proof for the test tuple, computed with an independent
SRP implementation. -/
def srpTestM1 : List Nat :=
  [0x0B, 0xBB, 0x80, 0x2F, 0x71, 0x63, 0xED, 0xC9, 0x9E, 0x12, 0xBC, 0x06,
   0x52, 0x6D, 0xB5, 0x10, 0x0C, 0x97, 0x98, 0x77]

/-- The byte values of "USER" and "PASSWORD". -/
def srpTestIdentity : List Nat := [0x55, 0x53, 0x45, 0x52]

def srpTestSecret : List Nat := [0x50, 0x41, 0x53, 0x53, 0x57, 0x4F, 0x52, 0x44]

/-! ## Theorems -/

/-- C3: after RC4 init with the 3-byte key "Key", a single process call over
the 9-byte buffer "Plaintext" transforms it into exactly the bytes
BB F3 16 E8 D9 40 AF 0A D3. -/
theorem rc4_key_plaintext_vector :
    (rc4Process (rc4Init rc4TestKey rc4New) rc4TestPlain).2 =
      [0xBB, 0xF3, 0x16, 0xE8, 0xD9, 0x40, 0xAF, 0x0A, 0xD3] := by
  decide

/-- C10: `RC4::init` with an empty key leaves the whole cipher state (the
permutation table and both cursor indices) unchanged, so every later
`process` call behaves exactly as if the failed `init` had not happened. -/
theorem rc4_init_empty_key_noop :
    ∀ (s : RC4State), rc4Init [] s = s ∧
      ∀ (data : List Nat), rc4Process (rc4Init [] s) data = rc4Process s data := by
  intro s
  constructor
  · simp [rc4Init]
  · intro data
    simp [rc4Init]

theorem wordsLE_length (vs : List Nat) : (wordsLE vs).length = 4 * vs.length := by
  induction vs with
  | nil => rfl
  | cons v vs ih =>
    simp only [wordsLE, List.flatMap_cons] at ih ⊢
    simp only [List.length_append, List.length_cons, ih, wordLE]
    simp
    omega

theorem readUInt8_of_drop {o : Nat} {D : List Nat} {pos b : Nat} {t : List Nat}
    (h : D.drop pos = b :: t) :
    readUInt8 ⟨o, D, pos⟩ = some (b, ⟨o, D, pos + 1⟩) ∧ D.drop (pos + 1) = t := by
  constructor
  · simp [readUInt8, h]
  · have hdd : D.drop (pos + 1) = (D.drop pos).drop 1 := by
      rw [List.drop_drop]
    rw [hdd, h]
    simp

theorem readUInt32_of_drop {o : Nat} {D : List Nat} {pos w : Nat} {t : List Nat}
    (hw : w < 2 ^ 32) (h : D.drop pos = wordLE w ++ t) :
    readUInt32 ⟨o, D, pos⟩ = some (w, ⟨o, D, pos + 4⟩) ∧ D.drop (pos + 4) = t := by
  simp only [wordLE, List.cons_append, List.nil_append] at h
  obtain ⟨h1, hd1⟩ := readUInt8_of_drop (o := o) h
  obtain ⟨h2, hd2⟩ := readUInt8_of_drop (o := o) hd1
  obtain ⟨h3, hd3⟩ := readUInt8_of_drop (o := o) hd2
  obtain ⟨h4, hd4⟩ := readUInt8_of_drop (o := o) hd3
  have hpos : pos + 1 + 1 + 1 + 1 = pos + 4 := by omega
  rw [hpos] at h4 hd4
  refine ⟨?_, hd4⟩
  simp only [readUInt32, h1, h2, h3, h4, Option.bind_eq_bind, Option.some_bind]
  have hsum : w % 256 + w / 256 % 256 * 256 + w / 65536 % 256 * 65536 +
      w / 16777216 % 256 * 16777216 = w := by omega
  simp [hsum]

theorem packedGuidMask_lt (g n : Nat) : packedGuidMask g n < 2 ^ n := by
  induction n with
  | zero => simp [packedGuidMask]
  | succ n ih =>
    simp only [packedGuidMask, pow_succ]
    by_cases h : guidByte g n ≠ 0 <;> simp [h] <;> omega

theorem packedGuidMask_testBit (g : Nat) {n i : Nat} (h : i < n) :
    (packedGuidMask g n).testBit i = decide (guidByte g i ≠ 0) := by
  induction n with
  | zero => omega
  | succ n ih =>
    rw [packedGuidMask, Nat.testBit_mul_pow_two_add _ (packedGuidMask_lt g n)]
    by_cases hi : i < n
    · simp [hi, ih hi]
    · have hin : i = n := by omega
      subst hin
      by_cases hb : guidByte g i ≠ 0 <;> simp [hi, hb]

theorem packedGuidMask_eq_zero (g : Nat) {n : Nat} (h : packedGuidMask g n = 0) :
    ∀ i, i < n → guidByte g i = 0 := by
  induction n with
  | zero => omega
  | succ n ih =>
    intro i hi
    rw [packedGuidMask] at h
    have h2 : packedGuidMask g n = 0 := by omega
    by_cases hin : i < n
    · exact ih h2 i hin
    · have hieq : i = n := by omega
      subst hieq
      by_cases hb : guidByte g i ≠ 0
      · simp [hb] at h
      · omega

/-- Disjoint OR is addition: when `a` fits below bit `k`, OR-ing it with a
value shifted up by `k` is plain addition. -/
theorem shiftLeft_lor_eq_add {a k : Nat} (b : Nat) (h : a < 2 ^ k) :
    (b <<< k) ||| a = 2 ^ k * b + a := by
  apply Nat.eq_of_testBit_eq
  intro j
  rw [Nat.testBit_mul_pow_two_add b h j]
  by_cases hj : j < k
  · have hx : a.testBit j = ((b <<< k) ||| a).testBit j := by
      simp [Nat.testBit_lor, Nat.testBit_shiftLeft, Nat.not_le.mpr hj]
    simp [← hx, hj]
  · have ha : a.testBit j = false :=
      Nat.testBit_lt_two_pow (lt_of_lt_of_le h (Nat.pow_le_pow_right (by omega) (by omega)))
    simp [Nat.testBit_lor, Nat.testBit_shiftLeft, Nat.le_of_not_lt hj, ha, hj]

theorem collectGuid_range' (g : Nat) : ∀ (m k : Nat),
    collectGuid g (List.range' k m) = g / 2 ^ (8 * k) % 2 ^ (8 * m) * 2 ^ (8 * k) := by
  intro m
  induction m with
  | zero =>
    intro k
    simp [List.range', collectGuid, Nat.mod_one]
  | succ m ih =>
    intro k
    rw [List.range'_succ]
    rw [collectGuid, ih (k + 1)]
    have hbyte : guidByte g k < 256 := by
      simp only [guidByte, Nat.shiftRight_eq_div_pow]
      omega
    have hb : guidByte g k <<< (k * 8) < 2 ^ (8 * (k + 1)) := by
      rw [Nat.shiftLeft_eq]
      have h1 : guidByte g k * 2 ^ (k * 8) < 256 * 2 ^ (k * 8) := by
        have hp : 0 < 2 ^ (k * 8) := Nat.pos_pow_of_pos _ (by omega)
        exact (Nat.mul_lt_mul_right hp).mpr hbyte
      have h2 : 256 * 2 ^ (k * 8) = 2 ^ (8 * (k + 1)) := by
        have : (256 : Nat) = 2 ^ 8 := by norm_num
        rw [this, ← pow_add]
        ring_nf
      omega
    have hmul : g / 2 ^ (8 * (k + 1)) % 2 ^ (8 * m) * 2 ^ (8 * (k + 1)) =
        (g / 2 ^ (8 * (k + 1)) % 2 ^ (8 * m)) <<< (8 * (k + 1)) := by
      rw [Nat.shiftLeft_eq]
    rw [hmul, Nat.lor_comm, shiftLeft_lor_eq_add _ hb]
    rw [Nat.shiftLeft_eq, guidByte]
    rw [Nat.shiftRight_eq_div_pow]
    have e1 : 8 * (k + 1) = 8 * k + 8 := by ring
    have e2 : 8 * (m + 1) = 8 * m + 8 := by ring
    rw [e1, e2, pow_add, pow_add]
    have e3 : g / (2 ^ (8 * k) * 2 ^ 8) = g / 2 ^ (8 * k) / 2 ^ 8 := by
      rw [Nat.div_div_eq_div_mul]
    rw [e3]
    set G := g / 2 ^ (8 * k) with hG
    have e4 : g / 2 ^ (k * 8) = G := by rw [hG]; ring_nf
    rw [e4]
    have hmm : G % (2 ^ (8 * m) * 2 ^ 8) = G % 2 ^ 8 + 2 ^ 8 * (G / 2 ^ 8 % 2 ^ (8 * m)) := by
      rw [mul_comm]
      exact Nat.mod_mul
    rw [hmm]
    have e5 : (256 : Nat) = 2 ^ 8 := by norm_num
    rw [e5]
    ring

/-- The loop of `readPackedGuid`, run over positions whose mask bits mirror
the non-zero bytes of `g` and over exactly the encoded payload bytes,
reconstructs the OR of those bytes and consumes exactly the payload. -/
theorem readGuidLoop_spec (g : Nat) : ∀ (is : List Nat) (mask acc op : Nat)
    (D : List Nat) (pos : Nat) (rest : List Nat),
    (∀ i ∈ is, mask.testBit i = decide (guidByte g i ≠ 0)) →
    D.drop pos = packedGuidBytes g is ++ rest →
    readGuidLoop mask is acc ⟨op, D, pos⟩ =
      some (acc ||| collectGuid g is, ⟨op, D, pos + (packedGuidBytes g is).length⟩) := by
  intro is
  induction is with
  | nil =>
    intro mask acc op D pos rest _ _
    simp [readGuidLoop, packedGuidBytes, collectGuid]
  | cons i is ih =>
    intro mask acc op D pos rest hmask hdrop
    have hmi := hmask i (by simp)
    by_cases hb : guidByte g i ≠ 0
    · have hbit : mask.testBit i = true := by rw [hmi]; simp [hb]
      have hbytes : packedGuidBytes g (i :: is) =
          guidByte g i :: packedGuidBytes g is := by
        simp [packedGuidBytes, hb]
      rw [hbytes, List.cons_append] at hdrop
      obtain ⟨hr, hd⟩ := readUInt8_of_drop (o := op) hdrop
      rw [readGuidLoop, hbit]
      simp only [if_true, hr]
      rw [ih mask _ op D (pos + 1) rest (fun j hj => hmask j (by simp [hj])) hd]
      rw [hbytes, collectGuid]
      simp only [List.length_cons]
      have hlor : acc ||| guidByte g i <<< (i * 8) ||| collectGuid g is =
          acc ||| (guidByte g i <<< (i * 8) ||| collectGuid g is) := by
        rw [Nat.lor_assoc]
      rw [hlor]
      have hpos : pos + 1 + (packedGuidBytes g is).length =
          pos + ((packedGuidBytes g is).length + 1) := by omega
      rw [hpos]
    · have hbit : mask.testBit i = false := by rw [hmi]; simp at hb; simp [hb]
      have hbytes : packedGuidBytes g (i :: is) = packedGuidBytes g is := by
        simp [packedGuidBytes, hb]
      rw [hbytes] at hdrop
      rw [readGuidLoop, hbit]
      simp only [Bool.false_eq_true, if_false]
      rw [ih mask acc op D pos rest (fun j hj => hmask j (by simp [hj])) hdrop]
      rw [hbytes, collectGuid]
      simp only [ne_eq, not_not] at hb
      rw [hb]
      simp

/-- C8: packed-identifier decoding is the exact inverse of the reference
packed-identifier encoding — for every 64-bit identifier, decoding the
encoding (one mask byte, then one byte per set bit 0–7 shifted into that
byte position) returns the identifier and consumes exactly the encoding;
and a fully-zero mask byte decodes to identifier 0, consuming only the mask
byte itself. -/
theorem readPackedGuid_inverse (g : Nat) (hg : g < 2 ^ 64) :
    (∀ (op : Nat) (rest : List Nat),
      readPackedGuid ⟨op, encodePackedGuid g ++ rest, 0⟩ =
        some (g, ⟨op, encodePackedGuid g ++ rest, (encodePackedGuid g).length⟩)) ∧
    (∀ (op : Nat) (D : List Nat) (pos : Nat) (t : List Nat), D.drop pos = 0 :: t →
      readPackedGuid ⟨op, D, pos⟩ = some (0, ⟨op, D, pos + 1⟩)) := by
  constructor
  · intro op rest
    have hdrop : (encodePackedGuid g ++ rest).drop 0 =
        packedGuidMask g 8 :: (packedGuidBytes g (List.range 8) ++ rest) := by
      simp [encodePackedGuid]
    obtain ⟨hr, hd⟩ := readUInt8_of_drop (o := op) hdrop
    rw [readPackedGuid]
    simp only [Option.bind_eq_bind, hr, Option.some_bind]
    have hcollect : collectGuid g (List.range 8) = g := by
      rw [List.range_eq_range', collectGuid_range']
      simp
      omega
    by_cases hm : packedGuidMask g 8 = 0
    · have hz : ∀ i, i < 8 → guidByte g i = 0 := packedGuidMask_eq_zero g hm
      have hgz : g = 0 := by
        have hall : ∀ is : List Nat, (∀ i ∈ is, guidByte g i = 0) → collectGuid g is = 0 := by
          intro is
          induction is with
          | nil => intro _; rfl
          | cons i is ih =>
            intro h
            rw [collectGuid, ih (fun j hj => h j (by simp [hj])), h i (by simp)]
            simp
        exact hcollect.symm.trans
          (hall (List.range 8) (by intro i hi; exact hz i (by simpa using hi)))
      have hbytes : packedGuidBytes g (List.range 8) = [] := by
        simp only [packedGuidBytes, List.filterMap_eq_nil_iff]
        intro i hi
        rw [hz i (by simpa using hi)]
        simp
      subst hgz
      simp [hm, encodePackedGuid, hbytes]
    · simp only [hm, if_false]
      rw [readGuidLoop_spec g (List.range 8) _ 0 op _ 1 rest
        (fun i hi => packedGuidMask_testBit g (by simpa using hi)) (by simpa using hd)]
      rw [hcollect]
      simp [encodePackedGuid]
      omega
  · intro op D pos t hdrop
    obtain ⟨hr, _⟩ := readUInt8_of_drop (o := op) hdrop
    rw [readPackedGuid]
    simp [hr]

/-- Witness for C8 at identifier `0x1122334455667788`: the encoding has all
eight mask bits set, and decoding returns the identifier after consuming all
nine bytes; the zero-mask case is exercised on a buffer starting `0x00`. -/
theorem readPackedGuid_inverse_witness :
    (0x1122334455667788 : Nat) < 2 ^ 64 ∧
      readPackedGuid ⟨0, encodePackedGuid 0x1122334455667788 ++ [7, 7], 0⟩ =
        some (0x1122334455667788,
          ⟨0, encodePackedGuid 0x1122334455667788 ++ [7, 7],
            (encodePackedGuid 0x1122334455667788).length⟩) ∧
      readPackedGuid ⟨0, [5, 0, 9], 1⟩ = some (0, ⟨0, [5, 0, 9], 2⟩) := by
  refine ⟨by decide, ?_, ?_⟩
  · exact (readPackedGuid_inverse 0x1122334455667788 (by decide)).1 0 [7, 7]
  · exact (readPackedGuid_inverse 0x1122334455667788 (by decide)).2 0 [5, 0, 9] 1 [9]
      (by decide)

theorem readFieldsForWord_spec : ∀ (bits : List Nat) (blockIdx mask : Nat)
    (fields : List (Nat × Nat)) (op : Nat) (D : List Nat) (pos : Nat)
    (vs rest : List Nat),
    vs.length = (bits.filter fun b => mask.testBit b).length →
    (∀ v ∈ vs, v < 2 ^ 32) →
    D.drop pos = wordsLE vs ++ rest →
    readFieldsForWord blockIdx mask bits fields ⟨op, D, pos⟩ =
      some (fields ++
          (((bits.filter fun b => mask.testBit b).map fun b => blockIdx * 32 + b).zip vs),
        ⟨op, D, pos + 4 * vs.length⟩) := by
  intro bits
  induction bits with
  | nil =>
    intro blockIdx mask fields op D pos vs rest hlen _ _
    simp only [List.filter_nil, List.length_nil, List.length_eq_zero] at hlen
    subst hlen
    simp [readFieldsForWord]
  | cons bit bits ih =>
    intro blockIdx mask fields op D pos vs rest hlen hvlt hdrop
    by_cases hb : mask.testBit bit
    · rw [List.filter_cons_of_pos (by simp [hb])] at hlen ⊢
      cases vs with
      | nil => simp at hlen
      | cons v vs' =>
        simp only [List.length_cons, Nat.succ.injEq] at hlen
        have hv : v < 2 ^ 32 := hvlt v (by simp)
        have hws : wordsLE (v :: vs') = wordLE v ++ wordsLE vs' := by
          simp [wordsLE]
        rw [hws, List.append_assoc] at hdrop
        obtain ⟨hr, hd⟩ := readUInt32_of_drop (o := op) hv hdrop
        rw [readFieldsForWord]
        simp only [hb, if_true, hr]
        rw [ih blockIdx mask _ op D (pos + 4) vs' rest hlen
          (fun v hv2 => hvlt v (by simp [hv2])) hd]
        simp only [List.map_cons, List.zip_cons_cons]
        rw [List.append_assoc]
        simp only [List.singleton_append, List.length_cons]
        have hpos : pos + 4 + 4 * vs'.length = pos + 4 * (vs'.length + 1) := by omega
        rw [hpos]
    · rw [List.filter_cons_of_neg (by simp [hb])] at hlen ⊢
      rw [readFieldsForWord]
      simp only [hb, Bool.false_eq_true, if_false]
      exact ih blockIdx mask fields op D pos vs rest hlen hvlt hdrop

theorem readMaskWords_spec : ∀ (ws : List Nat) (op : Nat) (D : List Nat)
    (pos : Nat) (rest : List Nat),
    (∀ w ∈ ws, w < 2 ^ 32) →
    D.drop pos = wordsLE ws ++ rest →
    readMaskWords ws.length ⟨op, D, pos⟩ =
      some (ws, ⟨op, D, pos + 4 * ws.length⟩) := by
  intro ws
  induction ws with
  | nil => intro op D pos rest _ _; simp [readMaskWords]
  | cons w ws ih =>
    intro op D pos rest hlt hdrop
    have hws : wordsLE (w :: ws) = wordLE w ++ wordsLE ws := by simp [wordsLE]
    rw [hws, List.append_assoc] at hdrop
    obtain ⟨hr, hd⟩ := readUInt32_of_drop (o := op) (hlt w (by simp)) hdrop
    rw [List.length_cons, readMaskWords]
    simp only [hr]
    rw [ih op D (pos + 4) rest (fun v hv => hlt v (by simp [hv])) hd]
    have hpos : pos + 4 + 4 * ws.length = pos + 4 * (ws.length + 1) := by omega
    rw [hpos]

theorem readAllFields_spec : ∀ (ms : List Nat) (blockIdx : Nat)
    (fields : List (Nat × Nat)) (op : Nat) (D : List Nat) (pos : Nat)
    (vs rest : List Nat),
    vs.length = (specFieldIndices blockIdx ms).length →
    (∀ v ∈ vs, v < 2 ^ 32) →
    D.drop pos = wordsLE vs ++ rest →
    readAllFields ms blockIdx fields ⟨op, D, pos⟩ =
      some (fields ++ (specFieldIndices blockIdx ms).zip vs,
        ⟨op, D, pos + 4 * vs.length⟩) := by
  intro ms
  induction ms with
  | nil =>
    intro blockIdx fields op D pos vs rest hlen _ _
    simp only [specFieldIndices, List.length_nil, List.length_eq_zero] at hlen
    subst hlen
    simp [readAllFields, specFieldIndices]
  | cons m ms ih =>
    intro blockIdx fields op D pos vs rest hlen hvlt hdrop
    rw [specFieldIndices] at hlen ⊢
    set idxs := (maskBitsLSB m).map (fun b => blockIdx * 32 + b) with hidxs
    set vs1 := vs.take idxs.length with hvs1
    set vs2 := vs.drop idxs.length with hvs2
    have hsplit : vs = vs1 ++ vs2 := (List.take_append_drop _ _).symm
    have hlen1 : vs1.length = idxs.length := by
      rw [hvs1, List.length_take]
      rw [List.length_append] at hlen
      omega
    have hlen2 : vs2.length = (specFieldIndices (blockIdx + 1) ms).length := by
      rw [hvs2, List.length_drop]
      rw [List.length_append] at hlen
      omega
    have hwsplit : wordsLE vs = wordsLE vs1 ++ wordsLE vs2 := by
      rw [hsplit, wordsLE, List.flatMap_append]
      rfl
    rw [hwsplit, List.append_assoc] at hdrop
    rw [readAllFields]
    have hlen1' : vs1.length = ((List.range 32).filter fun b => m.testBit b).length := by
      rw [hlen1, hidxs, List.length_map, maskBitsLSB]
    rw [readFieldsForWord_spec (List.range 32) blockIdx m fields op D pos vs1
      (wordsLE vs2 ++ rest) hlen1'
      (fun v hv => hvlt v (by rw [hsplit]; exact List.mem_append_left _ hv)) hdrop]
    simp only []
    rw [ih (blockIdx + 1) _ op D (pos + 4 * vs1.length) vs2 rest hlen2
      (fun v hv => hvlt v (by rw [hsplit]; exact List.mem_append_right _ hv)) ?_]
    · have hzip : (idxs ++ specFieldIndices (blockIdx + 1) ms).zip (vs1 ++ vs2) =
          idxs.zip vs1 ++ (specFieldIndices (blockIdx + 1) ms).zip vs2 :=
        List.zip_append hlen1.symm
      rw [hsplit, hzip, ← List.append_assoc]
      have : maskBitsLSB m = (List.range 32).filter fun b => m.testBit b := rfl
      rw [hidxs, this]
      have hpos : pos + 4 * vs1.length + 4 * vs2.length =
          pos + 4 * (vs1 ++ vs2).length := by
        rw [List.length_append]; omega
      rw [hpos]
    · have hdd : D.drop (pos + 4 * vs1.length) =
          ((D.drop pos).drop (4 * vs1.length)) := by
        rw [List.drop_drop]
      rw [hdd, hdrop, List.drop_left' (wordsLE_length vs1)]

/-- C7: bitmask field decoding reads one block-count byte, then that many
32-bit mask words, then one 32-bit value per set mask bit, consuming values
in mask-word order and least-significant-bit-first order within each word,
recording each at global field index `wordIndex*32 + bitIndex`; in
particular a single mask word `0b101` with two payload words yields exactly
the indices {0, 2} bound to the first and second value in read order. -/
theorem parseUpdateFields_correct :
    (∀ (masks values : List Nat) (op : Nat) (rest : List Nat),
      masks ≠ [] → masks.length < 256 →
      (∀ w ∈ masks, w < 2 ^ 32) → (∀ v ∈ values, v < 2 ^ 32) →
      values.length = (specFieldIndices 0 masks).length →
      parseUpdateFields ⟨op, masks.length :: (wordsLE masks ++ (wordsLE values ++ rest)), 0⟩ =
        some ((specFieldIndices 0 masks).zip values,
          ⟨op, masks.length :: (wordsLE masks ++ (wordsLE values ++ rest)),
            1 + 4 * masks.length + 4 * values.length⟩)) ∧
    (∀ (v1 v2 : Nat), v1 < 2 ^ 32 → v2 < 2 ^ 32 →
      parseUpdateFields ⟨0, 1 :: (wordLE 5 ++ (wordLE v1 ++ wordLE v2)), 0⟩ =
        some ([(0, v1), (2, v2)], ⟨0, 1 :: (wordLE 5 ++ (wordLE v1 ++ wordLE v2)), 13⟩)) := by
  have main : ∀ (masks values : List Nat) (op : Nat) (rest : List Nat),
      masks ≠ [] → masks.length < 256 →
      (∀ w ∈ masks, w < 2 ^ 32) → (∀ v ∈ values, v < 2 ^ 32) →
      values.length = (specFieldIndices 0 masks).length →
      parseUpdateFields ⟨op, masks.length :: (wordsLE masks ++ (wordsLE values ++ rest)), 0⟩ =
        some ((specFieldIndices 0 masks).zip values,
          ⟨op, masks.length :: (wordsLE masks ++ (wordsLE values ++ rest)),
            1 + 4 * masks.length + 4 * values.length⟩) := by
    intro masks values op rest hne hcount hw hv hlen
    set D := masks.length :: (wordsLE masks ++ (wordsLE values ++ rest)) with hD
    have hdrop0 : D.drop 0 = masks.length :: (wordsLE masks ++ (wordsLE values ++ rest)) := by
      rw [hD, List.drop_zero]
    obtain ⟨hr0, hd0⟩ := readUInt8_of_drop (o := op) hdrop0
    rw [parseUpdateFields, hr0]
    have hz : masks.length ≠ 0 := by
      intro hzz
      exact hne (List.length_eq_zero.mp hzz)
    simp only [hz, if_false]
    rw [readMaskWords_spec masks op D 1 (wordsLE values ++ rest) hw hd0]
    simp only []
    have hd1 : D.drop (1 + 4 * masks.length) = wordsLE values ++ rest := by
      have hdd : D.drop (1 + 4 * masks.length) = (D.drop 1).drop (4 * masks.length) := by
        rw [List.drop_drop]
      rw [hdd, hd0, List.drop_left' (wordsLE_length masks)]
    rw [readAllFields_spec masks 0 [] op D (1 + 4 * masks.length) values rest hlen hv hd1]
    simp only [List.nil_append]
  refine ⟨main, ?_⟩
  intro v1 v2 h1 h2
  have hspec : specFieldIndices 0 [5] = [0, 2] := by decide
  have hinst := main [5] [v1, v2] 0 [] (by simp) (by simp)
    (by intro w hw2; simp at hw2; omega)
    (by intro v hv2; simp at hv2; rcases hv2 with h | h <;> omega)
    (by rw [hspec]; simp)
  rw [hspec] at hinst
  simp only [List.zip_cons_cons, List.zip_nil_right] at hinst
  have hdata : wordsLE [5] ++ (wordsLE [v1, v2] ++ ([] : List Nat)) =
      wordLE 5 ++ (wordLE v1 ++ wordLE v2) := by
    simp [wordsLE]
  rw [hdata] at hinst
  have hlen13 : 1 + 4 * ([5] : List Nat).length + 4 * ([v1, v2] : List Nat).length = 13 := by
    simp
  rw [hlen13] at hinst
  simpa using hinst

/-- Witness for C7: one mask word `0b101` with payload values 17 and 42
decodes to the field mapping `[(0, 17), (2, 42)]`, and the general statement
applies to the same concrete input. -/
theorem parseUpdateFields_correct_witness :
    parseUpdateFields ⟨0, 1 :: (wordLE 5 ++ (wordLE 17 ++ wordLE 42)), 0⟩ =
      some ([(0, 17), (2, 42)], ⟨0, 1 :: (wordLE 5 ++ (wordLE 17 ++ wordLE 42)), 13⟩) :=
  parseUpdateFields_correct.2 17 42 (by decide) (by decide)

/-- C5: for every session state and every inbound message whose type is
unknown or not valid in the current state, dispatch leaves the whole
session (state, entity table, characters, chat history) unchanged — in
particular it does not enter FAILED — and emits no protocol action: the
message is only logged and discarded. -/
theorem handlePacket_invalid_discarded (s : Session) (p : Packet)
    (h : validInState s.state p.opcode = false) :
    handlePacket s p = (s, []) := by
  rw [validInState] at h
  rw [handlePacket]
  by_cases hsz : p.size < 1
  · rw [if_pos hsz]
  rw [if_neg hsz]
  by_cases h1 : p.opcode = SMSG_AUTH_CHALLENGE
  · rw [if_pos h1] at h
    rw [if_pos h1, if_neg (of_decide_eq_false h)]
  rw [if_neg h1] at h
  rw [if_neg h1]
  by_cases h2 : p.opcode = SMSG_AUTH_RESPONSE
  · rw [if_pos h2] at h
    rw [if_pos h2, if_neg (of_decide_eq_false h)]
  rw [if_neg h2] at h
  rw [if_neg h2]
  by_cases h3 : p.opcode = SMSG_CHAR_ENUM
  · rw [if_pos h3] at h
    rw [if_pos h3, if_neg (of_decide_eq_false h)]
  rw [if_neg h3] at h
  rw [if_neg h3]
  by_cases h4 : p.opcode = SMSG_LOGIN_VERIFY_WORLD
  · rw [if_pos h4] at h
    rw [if_pos h4, if_neg (of_decide_eq_false h)]
  rw [if_neg h4] at h
  rw [if_neg h4]
  by_cases h5 : p.opcode = SMSG_ACCOUNT_DATA_TIMES
  · rw [if_pos h5] at h
    exact absurd h (by simp)
  rw [if_neg h5] at h
  rw [if_neg h5]
  by_cases h6 : p.opcode = SMSG_MOTD
  · rw [if_pos h6] at h
    exact absurd h (by simp)
  rw [if_neg h6] at h
  rw [if_neg h6]
  by_cases h7 : p.opcode = SMSG_PONG
  · rw [if_pos h7] at h
    exact absurd h (by simp)
  rw [if_neg h7] at h
  rw [if_neg h7]
  by_cases h8 : p.opcode = SMSG_UPDATE_OBJECT
  · rw [if_pos h8] at h
    rw [if_pos h8, if_neg (of_decide_eq_false h)]
  rw [if_neg h8] at h
  rw [if_neg h8]
  by_cases h9 : p.opcode = SMSG_DESTROY_OBJECT
  · rw [if_pos h9] at h
    rw [if_pos h9, if_neg (of_decide_eq_false h)]
  rw [if_neg h9] at h
  rw [if_neg h9]
  by_cases h10 : p.opcode = SMSG_MESSAGECHAT
  · rw [if_pos h10] at h
    rw [if_pos h10, if_neg (of_decide_eq_false h)]
  rw [if_neg h10]

/-- Witness for C5: an unknown message type (opcode 0x777) arriving while
IN_WORLD (the active phase) is discarded without any state change. -/
theorem handlePacket_invalid_discarded_witness :
    validInState WorldState.IN_WORLD 0x777 = false ∧
      handlePacket
        ⟨WorldState.IN_WORLD, List.replicate 40 1, [65], 12340, 1, 2, [],
          [(5, ⟨5, 3, [(0, 9)], none⟩)], [], 0, false⟩
        ⟨0x777, [1, 2, 3], 0⟩ =
      (⟨WorldState.IN_WORLD, List.replicate 40 1, [65], 12340, 1, 2, [],
          [(5, ⟨5, 3, [(0, 9)], none⟩)], [], 0, false⟩, []) := by
  refine ⟨by decide, ?_⟩
  exact handlePacket_invalid_discarded _ _ (by decide)

/-- C9: `GameHandler::connect` rejects any session key whose length is not
exactly 40 bytes — it returns false and moves the session to FAILED without
attempting a transport connection — while a 40-byte key passes the
validation and reaches the transport connect. -/
theorem connect_key_length_check (s : Session) (key account : List Nat)
    (build clientSeed : Nat) (tOk : Bool) :
    (key.length ≠ 40 →
      connect s key account build clientSeed tOk =
        (false, { s with state := WorldState.FAILED }, [Effect.failureCallback])) ∧
    (key.length = 40 →
      Effect.transportConnect ∈ (connect s key account build clientSeed tOk).2.2) := by
  constructor
  · intro h
    simp [connect, h, Session.fail]
  · intro h
    simp only [connect, h]
    norm_num
    cases tOk <;> simp [Session.fail]

/-- Witness for C9: a 39-byte key fails the session with no transport
attempt; a 40-byte key reaches the transport connect. -/
theorem connect_key_length_check_witness :
    (connect ⟨WorldState.DISCONNECTED, [], [], 12340, 0, 0, [], [], [], 0, true⟩
        (List.replicate 39 0) [65] 12340 7 true =
      (false, ⟨WorldState.FAILED, [], [], 12340, 0, 0, [], [], [], 0, true⟩,
        [Effect.failureCallback])) ∧
    Effect.transportConnect ∈
      (connect ⟨WorldState.DISCONNECTED, [], [], 12340, 0, 0, [], [], [], 0, true⟩
        (List.replicate 40 0) [65] 12340 7 true).2.2 := by
  constructor
  · exact (connect_key_length_check _ _ _ _ _ _).1 (by decide)
  · exact (connect_key_length_check _ _ _ _ _ _).2 (by decide)

/-- C6: if parsing any part of an SMSG_UPDATE_OBJECT message fails, nothing
is applied: the session (entity table included) is returned exactly as it
was, the session does not enter FAILED, and exactly one decode failure is
reported. -/
theorem updateObject_failure_atomic (s : Session) (p : Packet)
    (h : parseUpdateObject p = none) :
    handleUpdateObject s p = (s, [Effect.decodeFailure]) := by
  simp [handleUpdateObject, h]

/-- Witness for C6: a message announcing one update block but containing no
block bytes fails to parse, and handling it leaves a session with one
entity untouched, reporting a single decode failure. -/
theorem updateObject_failure_atomic_witness :
    parseUpdateObject ⟨SMSG_UPDATE_OBJECT, [1, 0, 0, 0], 0⟩ = none ∧
      handleUpdateObject
        ⟨WorldState.IN_WORLD, List.replicate 40 1, [65], 12340, 1, 2, [],
          [(5, ⟨5, 3, [(0, 9)], none⟩)], [], 0, false⟩
        ⟨SMSG_UPDATE_OBJECT, [1, 0, 0, 0], 0⟩ =
      (⟨WorldState.IN_WORLD, List.replicate 40 1, [65], 12340, 1, 2, [],
          [(5, ⟨5, 3, [(0, 9)], none⟩)], [], 0, false⟩, [Effect.decodeFailure]) := by
  refine ⟨by decide, ?_⟩
  exact updateObject_failure_atomic _ _ (by decide)

/-- C4: handling the server challenge in the CONNECTED state produces
exactly the trace [send CMSG_AUTH_SESSION, init cipher with the session
key]: the RC4 header cipher is initialized with the stored (40-byte)
session key immediately after the credentials message is sent, before any
further message is sent — and before any further inbound message can be
interpreted, since dispatch only interprets a message at the start of a
`handlePacket` call and this trace is complete when the call returns. -/
theorem cipher_init_after_credentials (s : Session) (u1 seed : Nat)
    (extra : List Nat) (hs : s.state = WorldState.CONNECTED)
    (hu : u1 < 2 ^ 32) (hse : seed < 2 ^ 32) (hnz : seed ≠ 0) :
    handlePacket s ⟨SMSG_AUTH_CHALLENGE, wordLE u1 ++ (wordLE seed ++ extra), 0⟩ =
      ({ s with serverSeed := seed, state := WorldState.AUTH_SENT },
        [Effect.send
          (authSessionPacket s.build s.accountName s.clientSeed s.sessionKey seed),
          Effect.initCipher s.sessionKey]) := by
  have hdrop0 : (wordLE u1 ++ (wordLE seed ++ extra)).drop 0 =
      wordLE u1 ++ (wordLE seed ++ extra) := List.drop_zero _
  obtain ⟨hr1, hd1⟩ := readUInt32_of_drop (o := SMSG_AUTH_CHALLENGE) hu hdrop0
  obtain ⟨hr2, _⟩ := readUInt32_of_drop (o := SMSG_AUTH_CHALLENGE) hse hd1
  have hsize : (⟨SMSG_AUTH_CHALLENGE, wordLE u1 ++ (wordLE seed ++ extra), 0⟩ :
      Packet).size = 8 + extra.length := by
    simp [Packet.size, wordLE]
    omega
  have hparse : parseAuthChallenge
      ⟨SMSG_AUTH_CHALLENGE, wordLE u1 ++ (wordLE seed ++ extra), 0⟩ =
      some (u1, seed) := by
    rw [parseAuthChallenge, if_neg (by omega)]
    rw [hr1]
    simp only []
    rw [hr2]
  rw [handlePacket]
  rw [if_neg (by omega)]
  rw [if_pos rfl, if_pos hs]
  rw [handleAuthChallenge, hparse]
  simp only []
  rw [if_pos (by simp [authChallengeIsValid, hnz])]
  simp [sendAuthSession]

/-- Witness for C4: a concrete CONNECTED session with a 40-byte key fed a
concrete challenge produces the send-then-init-cipher trace. -/
theorem cipher_init_after_credentials_witness :
    handlePacket
      ⟨WorldState.CONNECTED, List.replicate 40 1, [65], 12340, 1, 0, [], [], [], 0, false⟩
      ⟨SMSG_AUTH_CHALLENGE, wordLE 1 ++ (wordLE 2 ++ []), 0⟩ =
      (⟨WorldState.AUTH_SENT, List.replicate 40 1, [65], 12340, 1, 2, [], [], [], 0, false⟩,
        [Effect.send (authSessionPacket 12340 [65] 1 (List.replicate 40 1) 2),
          Effect.initCipher (List.replicate 40 1)]) :=
  cipher_init_after_credentials
    ⟨WorldState.CONNECTED, List.replicate 40 1, [65], 12340, 1, 0, [], [], [], 0, false⟩
    1 2 [] rfl (by decide) (by decide) (by decide)

theorem expectedPacketSize_pos {buf : List Nat} {n : Nat}
    (h : expectedPacketSize buf = some n) : 0 < n := by
  unfold expectedPacketSize at h
  cases h0 : buf.get? 0 with
  | none => rw [h0] at h; exact absurd h (by simp)
  | some opcode =>
    rw [h0] at h
    simp only [] at h
    by_cases hop : opcode = 0
    · rw [if_pos hop] at h
      cases h2 : buf.get? 2 with
      | none => rw [h2] at h; exact absurd h (by simp)
      | some status =>
        rw [h2] at h
        simp only [] at h
        by_cases hst : status = 0
        · rw [if_pos hst] at h
          cases h35 : buf.get? 35 with
          | none => rw [h35] at h; exact absurd h (by simp)
          | some gLen =>
            rw [h35] at h
            simp only [] at h
            cases h36 : buf.get? (36 + gLen) with
            | none => rw [h36] at h; exact absurd h (by simp)
            | some nLen =>
              rw [h36] at h
              simp only [] at h
              simp only [Option.some.injEq] at h
              omega
        · rw [if_neg hst] at h
          simp only [Option.some.injEq] at h
          omega
    · rw [if_neg hop] at h
      by_cases hop1 : opcode = 1
      · rw [if_pos hop1] at h
        cases h1 : buf.get? 1 with
        | none => rw [h1] at h; exact absurd h (by simp)
        | some status =>
          rw [h1] at h
          simp only [] at h
          simp only [Option.some.injEq] at h
          by_cases hst : status = 0 <;> simp [hst] at h <;> omega
      · rw [if_neg hop1] at h
        exact absurd h (by simp)

theorem get?_append_of_some {l : List Nat} {i x : Nat} (ys : List Nat)
    (h : l.get? i = some x) : (l ++ ys).get? i = some x := by
  obtain ⟨hi, _⟩ := List.get?_eq_some.mp h
  rw [List.get?_eq_getElem?] at h ⊢
  rw [List.getElem?_append_left hi]
  exact h

/-- Once the expected size of the leading frame is determined, appending
further bytes cannot change it (the header fields it reads are already
buffered). -/
theorem expectedPacketSize_append {buf : List Nat} {n : Nat} (ys : List Nat)
    (h : expectedPacketSize buf = some n) :
    expectedPacketSize (buf ++ ys) = some n := by
  unfold expectedPacketSize at h ⊢
  cases h0 : buf.get? 0 with
  | none => rw [h0] at h; exact absurd h (by simp)
  | some opcode =>
    rw [h0] at h
    simp only [] at h
    rw [get?_append_of_some ys h0]
    simp only []
    by_cases hop : opcode = 0
    · rw [if_pos hop] at h ⊢
      cases h2 : buf.get? 2 with
      | none => rw [h2] at h; exact absurd h (by simp)
      | some status =>
        rw [h2] at h
        simp only [] at h
        rw [get?_append_of_some ys h2]
        simp only []
        by_cases hst : status = 0
        · rw [if_pos hst] at h ⊢
          cases h35 : buf.get? 35 with
          | none => rw [h35] at h; exact absurd h (by simp)
          | some gLen =>
            rw [h35] at h
            simp only [] at h
            rw [get?_append_of_some ys h35]
            simp only []
            cases h36 : buf.get? (36 + gLen) with
            | none => rw [h36] at h; exact absurd h (by simp)
            | some nLen =>
              rw [h36] at h
              simp only [] at h
              rw [get?_append_of_some ys h36]
              simp only []
              exact h
        · rw [if_neg hst] at h ⊢
          exact h
    · rw [if_neg hop] at h ⊢
      by_cases hop1 : opcode = 1
      · rw [if_pos hop1] at h ⊢
        cases h1 : buf.get? 1 with
        | none => rw [h1] at h; exact absurd h (by simp)
        | some status =>
          rw [h1] at h
          simp only [] at h
          rw [get?_append_of_some ys h1]
          simp only []
          exact h
      · rw [if_neg hop1] at h
        exact absurd h (by simp)

theorem drainFuel_irrel : ∀ (len fuel : Nat) (buf : List Nat),
    buf.length ≤ len → buf.length ≤ fuel →
    drainFuel fuel buf = drainFuel buf.length buf := by
  intro len
  induction len with
  | zero =>
    intro fuel buf hlen _
    have hb : buf = [] := List.length_eq_zero.mp (by omega)
    subst hb
    cases fuel with
    | zero => rfl
    | succ f => simp [drainFuel, expectedPacketSize]
  | succ m ih =>
    intro fuel buf hlen hfuel
    by_cases hm : buf.length ≤ m
    · exact ih fuel buf hm hfuel
    · have hbl : buf.length = m + 1 := by omega
      cases fuel with
      | zero => omega
      | succ f =>
        rw [hbl]
        rw [drainFuel, drainFuel]
        cases hexp : expectedPacketSize buf with
        | none => rfl
        | some n =>
          simp only []
          by_cases hsh : buf.length < n
          · rw [if_pos hsh, if_pos hsh]
          · rw [if_neg hsh, if_neg hsh]
            have hpos := expectedPacketSize_pos hexp
            have hdl : (buf.drop n).length ≤ m := by
              rw [List.length_drop]
              omega
            rw [ih f (buf.drop n) hdl (by omega), ih m (buf.drop n) hdl (by omega)]

theorem drain_none {buf : List Nat} (h : expectedPacketSize buf = none) :
    drain buf = ([], buf) := by
  unfold drain
  cases hbl : buf.length with
  | zero => rfl
  | succ m => simp [drainFuel, h]

theorem drain_short {buf : List Nat} {n : Nat} (h : expectedPacketSize buf = some n)
    (hl : buf.length < n) : drain buf = ([], buf) := by
  unfold drain
  cases hbl : buf.length with
  | zero => rfl
  | succ m =>
    rw [drainFuel, h]
    simp only []
    rw [if_pos (by omega)]

theorem drain_step {buf : List Nat} {n : Nat} (h : expectedPacketSize buf = some n)
    (hl : n ≤ buf.length) :
    drain buf = (buf.take n :: (drain (buf.drop n)).1, (drain (buf.drop n)).2) := by
  have hpos := expectedPacketSize_pos h
  have hbl : buf.length = (buf.length - 1) + 1 := by omega
  unfold drain
  rw [hbl, drainFuel, h]
  simp only []
  rw [if_neg (by omega)]
  have hdl : (buf.drop n).length ≤ buf.length - 1 := by
    rw [List.length_drop]
    omega
  rw [drainFuel_irrel (buf.length - 1) (buf.length - 1) (buf.drop n) hdl hdl]

/-- The residual buffer left by the framer is itself stuck: polling it
again extracts nothing. -/
theorem drain_residue_stuck (buf : List Nat) :
    drain ((drain buf).2) = ([], (drain buf).2) := by
  suffices H : ∀ (len : Nat) (b : List Nat), b.length ≤ len →
      drain ((drain b).2) = ([], (drain b).2) from H buf.length buf le_rfl
  intro len
  induction len with
  | zero =>
    intro b hlen
    have hb : b = [] := List.length_eq_zero.mp (by omega)
    subst hb
    rfl
  | succ m ih =>
    intro b hlen
    cases hexp : expectedPacketSize b with
    | none => rw [drain_none hexp]; exact drain_none hexp
    | some n =>
      by_cases hsh : b.length < n
      · rw [drain_short hexp hsh]
        exact drain_short hexp hsh
      · rw [drain_step hexp (by omega)]
        have hpos := expectedPacketSize_pos hexp
        exact ih (b.drop n) (by rw [List.length_drop]; omega)

theorem take_append_of_le {n : Nat} {b : List Nat} (e : List Nat) (h : n ≤ b.length) :
    (b ++ e).take n = b.take n := by
  conv_lhs => rw [← List.take_append_drop n b, List.append_assoc]
  rw [List.take_left' (by rw [List.length_take]; omega)]

theorem drop_append_of_le {n : Nat} {b : List Nat} (e : List Nat) (h : n ≤ b.length) :
    (b ++ e).drop n = b.drop n ++ e := by
  conv_lhs => rw [← List.take_append_drop n b, List.append_assoc]
  rw [List.drop_left' (by rw [List.length_take]; omega)]

/-- Compositionality of the framer: draining `buf ++ extra` yields the
frames of `buf` followed by the frames obtained once `extra` is appended to
`buf`'s residue. -/
theorem drain_append (buf extra : List Nat) :
    drain (buf ++ extra) =
      ((drain buf).1 ++ (drain ((drain buf).2 ++ extra)).1,
        (drain ((drain buf).2 ++ extra)).2) := by
  suffices H : ∀ (len : Nat) (b : List Nat), b.length ≤ len →
      drain (b ++ extra) =
        ((drain b).1 ++ (drain ((drain b).2 ++ extra)).1,
          (drain ((drain b).2 ++ extra)).2) from H buf.length buf le_rfl
  intro len
  induction len with
  | zero =>
    intro b hlen
    have hb : b = [] := List.length_eq_zero.mp (by omega)
    subst hb
    simp [drain, drainFuel]
  | succ m ih =>
    intro b hlen
    cases hexp : expectedPacketSize b with
    | none =>
      rw [drain_none hexp]
      simp
    | some n =>
      by_cases hsh : b.length < n
      · rw [drain_short hexp hsh]
        simp
      · have hle : n ≤ b.length := by omega
        have hexp2 : expectedPacketSize (b ++ extra) = some n :=
          expectedPacketSize_append extra hexp
        have hle2 : n ≤ (b ++ extra).length := by
          rw [List.length_append]
          omega
        rw [drain_step hexp2 hle2, drain_step hexp hle]
        rw [take_append_of_le extra hle, drop_append_of_le extra hle]
        have hpos := expectedPacketSize_pos hexp
        rw [ih (b.drop n) (by rw [List.length_drop]; omega)]
        simp

/-- A full run over chunks, starting from a stuck residue, equals a single
drain of everything joined. -/
theorem framerRun_join : ∀ (chunks : List (List Nat)) (msgs : List (List Nat))
    (rbuf : List Nat), drain rbuf = ([], rbuf) →
    chunks.foldl framerFeed (msgs, rbuf) =
      (msgs ++ (drain (rbuf ++ chunks.flatten)).1, (drain (rbuf ++ chunks.flatten)).2) := by
  intro chunks
  induction chunks with
  | nil =>
    intro msgs rbuf hstuck
    simp [hstuck]
  | cons c cs ih =>
    intro msgs rbuf _
    rw [List.foldl_cons]
    have hfeed : framerFeed (msgs, rbuf) c =
        (msgs ++ (drain (rbuf ++ c)).1, (drain (rbuf ++ c)).2) := rfl
    rw [hfeed, ih _ _ (drain_residue_stuck (rbuf ++ c))]
    rw [List.flatten_cons, ← List.append_assoc, drain_append (rbuf ++ c) cs.flatten]
    simp [List.append_assoc]

/-- C2: chunk-boundary independence and no partial consumption — feeding a
byte stream to the framer one byte at a time over successive polls yields
exactly the frames, in the same order (and the same residual buffer), as
feeding the whole stream in a single call; and a frame whose expected size
is known but not fully buffered is never partially consumed: the poll
returns with the buffer untouched. -/
theorem framer_chunk_independence :
    (∀ s : List Nat, framerRun (s.map fun b => [b]) = framerRun [s]) ∧
    (∀ (buf : List Nat) (n : Nat), expectedPacketSize buf = some n →
      buf.length < n → drain buf = ([], buf)) := by
  constructor
  · intro s
    have hjoin : (s.map fun b => [b]).flatten = s := by
      induction s with
      | nil => rfl
      | cons a t iht => simp [iht]
    rw [framerRun, framerRun,
      framerRun_join (s.map fun b => [b]) [] [] (by rfl),
      framerRun_join [s] [] [] (by rfl)]
    rw [hjoin]
    simp
  · intro buf n h hl
    exact drain_short h hl

/-- Witness for C2: a complete LOGON_PROOF success frame (22 bytes)
followed by a truncated second frame, fed byte-by-byte, produces the same
single extracted frame and residue as one call; the 10-byte truncated frame
alone is not consumed. -/
theorem framer_chunk_independence_witness :
    framerRun (([1, 0, 2, 3, 4, 5, 6, 7, 8, 9, 10, 11, 12, 13, 14, 15, 16, 17,
        18, 19, 20, 21, 1, 0, 2, 3, 4, 5, 6, 7].map fun b => [b])) =
      framerRun [[1, 0, 2, 3, 4, 5, 6, 7, 8, 9, 10, 11, 12, 13, 14, 15, 16, 17,
        18, 19, 20, 21, 1, 0, 2, 3, 4, 5, 6, 7]] ∧
    expectedPacketSize [1, 0, 2, 3, 4, 5, 6, 7, 8, 9] = some 22 ∧
    drain [1, 0, 2, 3, 4, 5, 6, 7, 8, 9] =
      ([], [1, 0, 2, 3, 4, 5, 6, 7, 8, 9]) := by
  refine ⟨framer_chunk_independence.1 _, by decide, ?_⟩
  exact framer_chunk_independence.2 _ 22 (by decide) (by decide)

theorem toBytesBE_length (n x : Nat) : (toBytesBE n x).length = n := by
  simp [toBytesBE]

/-- SHA-1 always produces exactly 20 bytes. -/
theorem sha1_length (msg : List Nat) : (sha1 msg).length = 20 := by
  simp [sha1, toBytesBE_length]

theorem interleave_length : ∀ xs ys : List Nat,
    (interleave xs ys).length = xs.length + ys.length := by
  intro xs
  induction xs with
  | nil => intro ys; simp [interleave]
  | cons x xs ih =>
    intro ys
    cases ys with
    | nil => simp [interleave]
    | cons y ys =>
      rw [interleave]
      simp only [List.length_cons, ih]
      omega

theorem interleave_get : ∀ (xs ys : List Nat) (i : Nat), i < xs.length →
    xs.length = ys.length →
    (interleave xs ys).get? (2 * i) = xs.get? i ∧
      (interleave xs ys).get? (2 * i + 1) = ys.get? i := by
  intro xs
  induction xs with
  | nil =>
    intro ys i hi _
    simp at hi
  | cons x xs ih =>
    intro ys i hi hlen
    cases ys with
    | nil => simp at hlen
    | cons y ys =>
      cases i with
      | zero => simp [interleave]
      | succ j =>
        simp only [List.length_cons] at hi hlen
        obtain ⟨ih1, ih2⟩ := ih ys j (by omega) (by omega)
        have e1 : 2 * (j + 1) = 2 * j + 1 + 1 := by omega
        constructor
        · rw [e1, interleave, List.get?_cons_succ, List.get?_cons_succ,
            List.get?_cons_succ, ih1]
        · rw [e1, interleave, List.get?_cons_succ, List.get?_cons_succ,
            List.get?_cons_succ, ih2]

set_option maxHeartbeats 4000000 in
/-- C1: for every handshake input the derived session key K has exactly 40
bytes and is exactly the byte-by-byte interleaving of the 20-byte SHA-1 of
the even-indexed bytes of S with the 20-byte SHA-1 of the odd-indexed bytes
of S (K[2i] from the even-half hash, K[2i+1] from the odd-half hash); and
on a conforming server tuple (g = 7, the 32-byte prime, a random salt and
server ephemeral) the engine's K and M1 equal reference values computed
with an independent implementation. -/
theorem srp_session_key_interleaving :
    (∀ identity secret B g N salt a : List Nat,
      (srpFeed identity secret B g N salt a).K.length = 40 ∧
      (sha1 (deinterleave (srpFeed identity secret B g N salt a).S).1).length = 20 ∧
      (sha1 (deinterleave (srpFeed identity secret B g N salt a).S).2).length = 20 ∧
      ∀ i : Nat, i < 20 →
        (srpFeed identity secret B g N salt a).K.get? (2 * i) =
          (sha1 (deinterleave (srpFeed identity secret B g N salt a).S).1).get? i ∧
        (srpFeed identity secret B g N salt a).K.get? (2 * i + 1) =
          (sha1 (deinterleave (srpFeed identity secret B g N salt a).S).2).get? i) ∧
    (srpFeed srpTestIdentity srpTestSecret srpTestB [7] srpTestN srpTestSalt
        srpTestA).K = srpTestK ∧
    (srpFeed srpTestIdentity srpTestSecret srpTestB [7] srpTestN srpTestSalt
        srpTestA).M1 = srpTestM1 := by
  refine ⟨?_, by decide, by decide⟩
  intro identity secret B g N salt a
  have hK : (srpFeed identity secret B g N salt a).K =
      interleave (sha1 (deinterleave (srpFeed identity secret B g N salt a).S).1)
        (sha1 (deinterleave (srpFeed identity secret B g N salt a).S).2) := rfl
  refine ⟨?_, sha1_length _, sha1_length _, ?_⟩
  · rw [hK, interleave_length, sha1_length, sha1_length]
  · intro i hi
    rw [hK]
    exact interleave_get _ _ i (by rw [sha1_length]; omega)
      (by rw [sha1_length, sha1_length])

/-- Witness for C1: the interleaving equations instantiated at byte index 3
of the concrete test tuple. -/
theorem srp_session_key_interleaving_witness :
    (3 : Nat) < 20 ∧
      ((srpFeed srpTestIdentity srpTestSecret srpTestB [7] srpTestN srpTestSalt
          srpTestA).K.get? (2 * 3) =
        (sha1 (deinterleave (srpFeed srpTestIdentity srpTestSecret srpTestB [7]
          srpTestN srpTestSalt srpTestA).S).1).get? 3 ∧
      (srpFeed srpTestIdentity srpTestSecret srpTestB [7] srpTestN srpTestSalt
          srpTestA).K.get? (2 * 3 + 1) =
        (sha1 (deinterleave (srpFeed srpTestIdentity srpTestSecret srpTestB [7]
          srpTestN srpTestSalt srpTestA).S).2).get? 3) :=
  ⟨by decide,
    (srp_session_key_interleaving.1 srpTestIdentity srpTestSecret srpTestB [7]
      srpTestN srpTestSalt srpTestA).2.2.2 3 (by decide)⟩

end PuhaaWoW
